import Mathlib

/-!
Verification of the raw-export engine (`src/import/export-raw.c`).

This file gives a shallow embedding of the export engine in
`src/import/export-raw.c` and proves/refutes the frozen claims about it.

Modelling conventions:
* The engine state `RawExport` mirrors `struct RawExport` (the fields the
  claims talk about; file descriptors are kept as plain integers).
* External collaborators (the btrfs reflink ioctl, `sendfile`, `read`,
  `write`, the compressor `import_compress`/`import_compress_finish`, and
  the process-wide rate limiter `ratelimit_test`) are modelled as oracle
  inputs per transfer step (`StepEnv`): each field records the value the
  corresponding call would return.  Machine counters are 64-bit, so every
  counter update is taken modulo `2^64` as in the C source.
* `raw_export_process` is one invocation of the static C function of the
  same name (one event-loop notification).  Its observable effects (value
  returned to the event loop, whether the `finish:` label was reached and
  with which code, the progress emission, which fast paths were attempted)
  are collected in `StepOut`.
* A *consistent* run (`runConsistent`) restricts the oracles to outcomes a
  real file of a given byte length can produce: `read`/`sendfile` return at
  most 16 KiB (`COPY_BUFFER_SIZE`), never move past end of file, return 0
  exactly at end of file, and failing syscalls carry a positive `errno`.
-/

/-- Chunk size `COPY_BUFFER_SIZE` from export-raw.c (16*1024). -/
def COPY_BUFFER_SIZE : Nat := 16 * 1024

/-- Modulus 2^64 of the `uint64_t` counters. -/
def UINT64_LIMIT : Nat := 2 ^ 64

/-- Modulus 2^32 of `unsigned` (percent and `last_percent`). -/
def UINT32_LIMIT : Nat := 2 ^ 32

def EAGAIN : Nat := 11
def ENOMEM : Nat := 12
def EBUSY : Nat := 16
def ENOTTY : Nat := 25
def EPERM : Nat := 1

/-- Compression kinds (`ImportCompressType` from import-compress.h, an
external collaborator);
only the distinction "uncompressed vs. a real algorithm" matters to the
engine. -/
inductive ImportCompressType where
  | unknown
  | uncompressed
  | xz
  | gzip
  | bzip2
deriving DecidableEq, Repr

/-- Result of one non-blocking syscall (`sendfile` or `write`): either a
failure with a (positive) `errno`, or a byte count `n ≥ 0`. -/
inductive IORes where
  | ioErr (errno : Nat)
  | ioOk (n : Nat)
deriving DecidableEq, Repr

/-- One iteration of the read loop of `raw_export_process`, as seen through
its syscalls: `read` fails with `errno`; `read` returns 0 (then
`import_compress_finish` runs, returning code `rc` and appending `out` to
the pending buffer when `rc ≥ 0`); or `read` returns the bytes `chunk`
(then `import_compress` runs, returning `rc` and appending `out` when
`rc ≥ 0`). -/
inductive ReadEvent where
  | rErr (errno : Nat)
  | rEof (rc : Int) (out : List Nat)
  | rData (chunk : List Nat) (rc : Int) (out : List Nat)
deriving DecidableEq, Repr

/-- The engine state, mirroring `struct RawExport`.  `buffer` is the
pending buffer (`e->buffer` with valid length `e->buffer_size`);
`st_size`/`st_isReg` are the cached `fstat` result `e->st`. -/
structure RawExport where
  compressType : ImportCompressType
  buffer : List Nat
  written_compressed : Nat
  written_uncompressed : Nat
  last_percent : Nat
  st_size : Nat
  st_isReg : Bool
  eof : Bool
  tried_reflink : Bool
  tried_sendfile : Bool
  input_fd : Int
  output_fd : Int
  path_set : Bool
deriving DecidableEq, Repr

/-- State allocated by `raw_export_new`: `new0` zeroes everything, then
`output_fd = input_fd = -1` and `last_percent = (unsigned) -1`. -/
def raw_export_new : RawExport :=
  { compressType := .unknown
    buffer := []
    written_compressed := 0
    written_uncompressed := 0
    last_percent := UINT32_LIMIT - 1
    st_size := 0
    st_isReg := false
    eof := false
    tried_reflink := false
    tried_sendfile := false
    input_fd := -1
    output_fd := -1
    path_set := false }

/-- Oracle inputs for one invocation of `raw_export_process`: the results
the external calls would deliver.  `rlAllow` is the verdict
`ratelimit_test(&e->progress_rate_limit)` would give if consulted (the
rate limiter is an out-of-scope collaborator). -/
structure StepEnv where
  reflinkRes : Int
  sendfileRes : IORes
  reads : List ReadEvent
  writeRes : IORes
  rlAllow : Bool
deriving Repr

/-- Observable outcome of one invocation of `raw_export_process`. -/
structure StepOut where
  e : RawExport
  ret : Int
  finished : Option Int
  emitted : Option Nat
  reflinkAttempted : Bool
  reflinkSucceeded : Bool
  sendfileAttempted : Bool
  bytesFromInput : Nat
deriving DecidableEq, Repr

/-- Percent computation of `raw_export_report_progress`
(export-raw.c:129-148).  The percent
computation is 64-bit: `(written_uncompressed * UINT64_C(100)) /
(uint64_t) st_size`, cast to `unsigned`. -/
def percentOf (w size : Nat) : Nat :=
  if size ≤ w then 100
  else (w * 100 % UINT64_LIMIT) / size % UINT32_LIMIT

/-- The body of `raw_export_report_progress`; `rlAllow` is the oracle for
`ratelimit_test`.  Returns the updated state and the emitted percent, if
any. -/
def raw_export_report_progress (e : RawExport) (rlAllow : Bool) :
    RawExport × Option Nat :=
  let percent := percentOf e.written_uncompressed e.st_size
  if percent = e.last_percent then (e, none)
  else if rlAllow = false then (e, none)
  else ({ e with last_percent := percent }, some percent)

/-- Result of the read/compress loop (`while (e->buffer_size <= 0)`,
export-raw.c:192-217): the loop reached `goto finish` with code `r`, or it
left a non-empty buffer ready for `write`, or the oracle stream ran out
(`loopStarve` — not a behaviour of the C code, only of under-specified
oracles).  `consumed` counts the bytes taken from the input file. -/
inductive LoopRes where
  | loopFinish (e : RawExport) (r : Int) (consumed : Nat)
  | loopReady (e : RawExport) (consumed : Nat)
  | loopStarve (e : RawExport) (consumed : Nat)
deriving DecidableEq, Repr

/-- Add `n` input bytes to the `consumed` count of a loop result. -/
def LoopRes.addBytes (n : Nat) : LoopRes → LoopRes
  | .loopFinish e r c => .loopFinish e r (n + c)
  | .loopReady e c => .loopReady e (n + c)
  | .loopStarve e c => .loopStarve e (n + c)

/-- The read/compress loop of `raw_export_process` (export-raw.c:192-217):
while the pending buffer is empty, finish with 0 on eof, otherwise read;
a failed read finishes with `-errno`; a zero read sets `eof` and flushes
the compressor; a positive read advances `written_uncompressed` and feeds
the compressor; a negative compressor code finishes with that code. -/
def processLoop (e : RawExport) (reads : List ReadEvent) : LoopRes :=
  if 0 < e.buffer.length then .loopReady e 0
  else if e.eof then .loopFinish e 0 0
  else
    match reads with
    | [] => .loopStarve e 0
    | .rErr errno :: _ => .loopFinish e (-(errno : Int)) 0
    | .rEof rc out :: rest =>
        if rc < 0 then .loopFinish { e with eof := true } rc 0
        else processLoop { e with eof := true, buffer := e.buffer ++ out } rest
    | .rData chunk rc out :: rest =>
        let e1 := { e with
          written_uncompressed :=
            (e.written_uncompressed + chunk.length) % UINT64_LIMIT }
        if rc < 0 then .loopFinish e1 rc chunk.length
        else
          (processLoop { e1 with buffer := e1.buffer ++ out } rest).addBytes
            chunk.length

/-- The generic buffered path of `raw_export_process` (export-raw.c:192-235
plus the `finish:` label): run the read loop, then one non-blocking
`write`; would-block returns, a write error finishes with `-errno`, a
write of `m` bytes compacts the buffer, advances `written_compressed` and
reports progress.  `ra`/`sa` record which fast paths were attempted
earlier in this invocation. -/
def continueGeneric (e : RawExport) (env : StepEnv) (ra sa : Bool) : StepOut :=
  match processLoop e env.reads with
  | .loopFinish e1 r c =>
      { e := e1, ret := 0, finished := some r, emitted := none,
        reflinkAttempted := ra, reflinkSucceeded := false,
        sendfileAttempted := sa, bytesFromInput := c }
  | .loopStarve e1 c =>
      { e := e1, ret := 0, finished := none, emitted := none,
        reflinkAttempted := ra, reflinkSucceeded := false,
        sendfileAttempted := sa, bytesFromInput := c }
  | .loopReady e1 c =>
      match env.writeRes with
      | .ioErr errno =>
          if errno = EAGAIN then
            { e := e1, ret := 0, finished := none, emitted := none,
              reflinkAttempted := ra, reflinkSucceeded := false,
              sendfileAttempted := sa, bytesFromInput := c }
          else
            { e := e1, ret := 0, finished := some (-(errno : Int)),
              emitted := none, reflinkAttempted := ra,
              reflinkSucceeded := false, sendfileAttempted := sa,
              bytesFromInput := c }
      | .ioOk m =>
          let e2 := { e1 with
            buffer := e1.buffer.drop m,
            written_compressed := (e1.written_compressed + m) % UINT64_LIMIT }
          let rp := raw_export_report_progress e2 env.rlAllow
          { e := rp.1, ret := 0, finished := none, emitted := rp.2,
            reflinkAttempted := ra, reflinkSucceeded := false,
            sendfileAttempted := sa, bytesFromInput := c }

/-- The sendfile fast path and everything after it (export-raw.c:171-235):
if the sendfile latch is clear and the compression type is uncompressed,
try `sendfile`; `EAGAIN` returns without setting the latch; another error
sets the latch and falls through to the generic path; 0 bytes means the
input is exhausted (`goto finish` with 0); a positive count advances both
counters and reports progress. -/
def afterReflink (e : RawExport) (env : StepEnv) (ra : Bool) : StepOut :=
  if e.tried_sendfile = false ∧ e.compressType = .uncompressed then
    match env.sendfileRes with
    | .ioErr errno =>
        if errno = EAGAIN then
          { e := e, ret := 0, finished := none, emitted := none,
            reflinkAttempted := ra, reflinkSucceeded := false,
            sendfileAttempted := true, bytesFromInput := 0 }
        else
          continueGeneric { e with tried_sendfile := true } env ra true
    | .ioOk l =>
        if l = 0 then
          { e := e, ret := 0, finished := some 0, emitted := none,
            reflinkAttempted := ra, reflinkSucceeded := false,
            sendfileAttempted := true, bytesFromInput := 0 }
        else
          let e1 := { e with
            written_uncompressed :=
              (e.written_uncompressed + l) % UINT64_LIMIT,
            written_compressed :=
              (e.written_compressed + l) % UINT64_LIMIT }
          let rp := raw_export_report_progress e1 env.rlAllow
          { e := rp.1, ret := 0, finished := none, emitted := rp.2,
            reflinkAttempted := ra, reflinkSucceeded := false,
            sendfileAttempted := true, bytesFromInput := l }
  else continueGeneric e env ra false

/-- One invocation of `raw_export_process` (export-raw.c:150-249).  First
the reflink fast path (first call only, uncompressed only): success jumps
to `finish:` with 0; failure sets the latch and falls through. -/
def raw_export_process (e : RawExport) (env : StepEnv) : StepOut :=
  if e.tried_reflink = false ∧ e.compressType = .uncompressed then
    if 0 ≤ env.reflinkRes then
      { e := e, ret := 0, finished := some 0, emitted := none,
        reflinkAttempted := true, reflinkSucceeded := true,
        sendfileAttempted := false, bytesFromInput := 0 }
    else afterReflink { e with tried_reflink := true } env true
  else afterReflink e env false

/-! ## Runs: repeated invocations driven by the event loop -/

/-- State after processing every step of `envs` in order. -/
def runState : RawExport → List StepEnv → RawExport
  | e, [] => e
  | e, env :: rest => runState (raw_export_process e env).e rest

/-- The outcomes of every step of `envs`, in order. -/
def runTrace : RawExport → List StepEnv → List StepOut
  | _, [] => []
  | e, env :: rest =>
      raw_export_process e env :: runTrace (raw_export_process e env).e rest

/-- The progress percentages emitted over a run, in order. -/
def runEmissions : RawExport → List StepEnv → List Nat
  | _, [] => []
  | e, env :: rest =>
      match (raw_export_process e env).emitted with
      | none => runEmissions (raw_export_process e env).e rest
      | some p => p :: runEmissions (raw_export_process e env).e rest

/-- The run as the event loop drives it when the completion action stops
further deliveries: process steps until the first one that reaches
`finish:`, and return that step's outcome. -/
def runToFinish : RawExport → List StepEnv → Option StepOut
  | _, [] => none
  | e, env :: rest =>
      let o := raw_export_process e env
      if o.finished.isSome then some o else runToFinish o.e rest

/-- Number of steps of a trace that reached `finish:` (i.e. invoked the
completion callback or terminated the event loop). -/
def finishCount (tr : List StepOut) : Nat :=
  (tr.filter fun o => o.finished.isSome).length

/-- Prefix of a trace up to and including its first finishing step. -/
def takeToFirstFinish : List StepOut → List StepOut
  | [] => []
  | o :: rest =>
      if o.finished.isSome then [o] else o :: takeToFirstFinish rest

/-! ## Consistency of the oracles with a real source file

A source file of byte length `S` with current read offset `off`
constrains what the syscalls can return. -/

/-- Consistency of `sendfile(out, in, NULL, COPY_BUFFER_SIZE)` against a
file of length
`S` at offset `off`: at most `COPY_BUFFER_SIZE` bytes, never past end of
file, 0 exactly at end of file; a failure carries a positive errno. -/
def sendfileConsistent (S off : Nat) : IORes → Bool
  | .ioErr errno => decide (0 < errno)
  | .ioOk l =>
      decide (l ≤ COPY_BUFFER_SIZE ∧ off + l ≤ S ∧ (l = 0 ↔ off = S))

/-- Consistency of `read(fd, buf, COPY_BUFFER_SIZE)` events against a file
of length `S`,
threading the offset: data chunks are non-empty, bounded by the buffer
size and by end of file; a zero read happens exactly at end of file; a
failure carries a positive errno. -/
def readsConsistent (S : Nat) : Nat → List ReadEvent → Bool
  | _, [] => true
  | off, .rErr errno :: rest =>
      decide (0 < errno) && readsConsistent S off rest
  | off, .rEof _ _ :: rest =>
      decide (off = S) && readsConsistent S off rest
  | off, .rData chunk _ _ :: rest =>
      decide (0 < chunk.length ∧ chunk.length ≤ COPY_BUFFER_SIZE ∧
        off + chunk.length ≤ S) &&
      readsConsistent S (off + chunk.length) rest

/-- A failed `write` carries a positive errno. -/
def writeConsistent : IORes → Bool
  | .ioErr errno => decide (0 < errno)
  | .ioOk _ => true

/-- Consistency of one step's oracles with file length `S` at offset
`off`. -/
def stepConsistent (S off : Nat) (env : StepEnv) : Bool :=
  sendfileConsistent S off env.sendfileRes &&
  readsConsistent S off env.reads &&
  writeConsistent env.writeRes

/-- Consistency of a whole run, threading the read offset through the
bytes each step actually consumed from the input. -/
def runConsistent (S : Nat) : Nat → RawExport → List StepEnv → Bool
  | _, _, [] => true
  | off, e, env :: rest =>
      stepConsistent S off env &&
      runConsistent S (off + (raw_export_process e env).bytesFromInput)
        (raw_export_process e env).e rest

/-! ## `raw_export_start` (export-raw.c:294-351) -/

/-- Cached `fstat` result. -/
structure StatInfo where
  size : Nat
  isReg : Bool
deriving DecidableEq, Repr

/-- Oracle inputs for one call of `raw_export_start`: the results of
`fd_nonblock`, `free_and_strdup`, `open`, `fstat`, `reflink_snapshot`,
`import_compress_init`, `sd_event_add_io`, `sd_event_add_defer`,
`sd_event_source_set_enabled`.  `openRes`/`snapshotRes` carry the
descriptor on success, the errno / negative code on failure. -/
structure StartEnv where
  nonblockRes : Int
  strdupOk : Bool
  openRes : Except Nat Nat
  fstatRes : Except Nat StatInfo
  snapshotRes : Except Int Nat
  compressInitRes : Int
  addIoRes : Int
  addDeferRes : Int
  setEnabledRes : Int
deriving Repr

/-- Outcome of `raw_export_start`: the new engine state, the returned
code, and whether this call assigned `e->input_fd`. -/
structure StartOut where
  e : RawExport
  r : Int
  assignedInputFd : Bool
deriving DecidableEq, Repr

/-- The start entry point `raw_export_start(e, path, fd, compress)`
(export-raw.c:294-351),
with the syscall results supplied by `env` and the caller's output
descriptor `outFd`. -/
def raw_export_start (e : RawExport) (cArg : ImportCompressType)
    (outFd : Nat) (env : StartEnv) : StartOut :=
  if 0 ≤ e.output_fd then { e := e, r := -(EBUSY : Int), assignedInputFd := false }
  else if env.nonblockRes < 0 then
    { e := e, r := env.nonblockRes, assignedInputFd := false }
  else if env.strdupOk = false then
    { e := e, r := -(ENOMEM : Int), assignedInputFd := false }
  else
    let e1 := { e with path_set := true }
    match env.openRes with
    | .error errno => { e := e1, r := -(errno : Int), assignedInputFd := false }
    | .ok sfd =>
      match env.fstatRes with
      | .error errno =>
          { e := e1, r := -(errno : Int), assignedInputFd := false }
      | .ok st =>
        let e2 := { e1 with st_size := st.size, st_isReg := st.isReg }
        if st.isReg = false then
          { e := e2, r := -(ENOTTY : Int), assignedInputFd := false }
        else
          let e3 :=
            match env.snapshotRes with
            | .ok tfd => { e2 with input_fd := (tfd : Int) }
            | .error _ => { e2 with input_fd := (sfd : Int) }
          if env.compressInitRes < 0 then
            { e := e3, r := env.compressInitRes, assignedInputFd := true }
          else
            let e4 := { e3 with compressType := cArg }
            if env.addIoRes = -(EPERM : Int) then
              if env.addDeferRes < 0 then
                { e := e4, r := env.addDeferRes, assignedInputFd := true }
              else if env.setEnabledRes < 0 then
                { e := e4, r := env.setEnabledRes, assignedInputFd := true }
              else
                { e := { e4 with output_fd := (outFd : Int) },
                  r := env.setEnabledRes, assignedInputFd := true }
            else if env.addIoRes < 0 then
              { e := e4, r := env.addIoRes, assignedInputFd := true }
            else
              { e := { e4 with output_fd := (outFd : Int) },
                r := env.addIoRes, assignedInputFd := true }

/-- Positive errnos in a start oracle (so that `-errno < 0` as in C). -/
def startEnvWF (env : StartEnv) : Bool :=
  (match env.openRes with
   | .error errno => decide (0 < errno)
   | .ok _ => true) &&
  (match env.fstatRes with
   | .error errno => decide (0 < errno)
   | .ok _ => true)

/-- A start oracle on which every external call succeeds and the opened
file is regular. -/
def goodStartEnv (env : StartEnv) : Bool :=
  decide (0 ≤ env.nonblockRes) && env.strdupOk &&
  (match env.openRes with | .ok _ => true | .error _ => false) &&
  (match env.fstatRes with | .ok st => st.isReg | .error _ => false) &&
  decide (0 ≤ env.compressInitRes) && decide (0 ≤ env.addIoRes)

/-! ## Accessors and concrete fixtures -/

/-- Engine state carried by a loop result. -/
def LoopRes.state : LoopRes → RawExport
  | .loopFinish e _ _ => e
  | .loopReady e _ => e
  | .loopStarve e _ => e

/-- Input bytes consumed by the loop. -/
def LoopRes.consumed : LoopRes → Nat
  | .loopFinish _ _ c => c
  | .loopReady _ c => c
  | .loopStarve _ c => c

/-- The finish code of the loop, if it reached `goto finish`. -/
def LoopRes.rcode : LoopRes → Option Int
  | .loopFinish _ r _ => some r
  | .loopReady _ _ => none
  | .loopStarve _ _ => none

/-- A start oracle where every external call succeeds, `open` yields fd 3,
the file is regular of size `S`, and the reflink snapshot is unsupported
(so `input_fd` becomes the opened descriptor). -/
def startEnvOkSize (S : Nat) : StartEnv :=
  { nonblockRes := 0, strdupOk := true, openRes := .ok 3,
    fstatRes := .ok ⟨S, true⟩, snapshotRes := .error (-95),
    compressInitRes := 0, addIoRes := 0, addDeferRes := 0,
    setEnabledRes := 0 }

/-- Engine state right after a successful `raw_export_start` on a fresh
engine, for compression `c`, a regular source file of `S` bytes, and
output descriptor 4. -/
def startedState (c : ImportCompressType) (S : Nat) : RawExport :=
  (raw_export_start raw_export_new c 4 (startEnvOkSize S)).e

/-- Mid-export state on the sendfile path of an uncompressed export of the
largest regular file Linux admits (`2^63 - 1` bytes): `w` bytes moved so
far, `lp` the last reported percent, `tr` the reflink latch. -/
def sfState (w lp : Nat) (tr : Bool) : RawExport :=
  { compressType := .uncompressed
    buffer := []
    written_compressed := w
    written_uncompressed := w
    last_percent := lp
    st_size := 2 ^ 63 - 1
    st_isReg := true
    eof := false
    tried_reflink := tr
    tried_sendfile := false
    input_fd := 3
    output_fd := 4
    path_set := true }

/-- A step oracle: reflink unsupported, `sendfile` moves a full 16 KiB
chunk, rate limiter denies. -/
def quietEnv : StepEnv :=
  { reflinkRes := -95, sendfileRes := .ioOk 16384, reads := [],
    writeRes := .ioErr EAGAIN, rlAllow := false }

/-- Like `quietEnv` but the rate limiter allows an emission. -/
def loudEnv : StepEnv :=
  { reflinkRes := -95, sendfileRes := .ioOk 16384, reads := [],
    writeRes := .ioErr EAGAIN, rlAllow := true }

/-- A full consistent schedule for the `2^63 - 1`-byte export that probes
the reported percent when `written_uncompressed` reaches `2^61` and again
at `2^62`. -/
def ceRun6 : List StepEnv :=
  quietEnv :: (List.replicate (2 ^ 47 - 2) quietEnv ++
    ([loudEnv] ++ (List.replicate (2 ^ 47 - 1) quietEnv ++ [loudEnv])))

/-- The freshly started engine for that export. -/
def e6start : RawExport := startedState .uncompressed (2 ^ 63 - 1)

/-- Reflink immediately succeeds (same-filesystem btrfs source and
destination). -/
def envReflinkOk : StepEnv :=
  { reflinkRes := 0, sendfileRes := .ioErr EAGAIN, reads := [],
    writeRes := .ioErr EAGAIN, rlAllow := false }

/-- Reflink unsupported; `sendfile` reports end of file (0 bytes). -/
def envSendfileEof : StepEnv :=
  { reflinkRes := -95, sendfileRes := .ioOk 0, reads := [],
    writeRes := .ioErr EAGAIN, rlAllow := false }

/-- Compressed-path oracle: first read hits end of file and the compressor
flush produces nothing. -/
def envReadEofFlushNil : StepEnv :=
  { reflinkRes := -95, sendfileRes := .ioErr EAGAIN,
    reads := [.rEof 0 []], writeRes := .ioErr EAGAIN, rlAllow := false }

/-- Compressed-path oracle for a 1-byte file: read one byte (compressor
buffers it producing no output), then end of file, where the compressor
flush emits the single pending byte; the first write would block. -/
def env41 : StepEnv :=
  { reflinkRes := -95, sendfileRes := .ioErr EAGAIN,
    reads := [.rData [9] 0 [], .rEof 0 [7]],
    writeRes := .ioErr EAGAIN, rlAllow := false }

/-- The retried write accepts the single pending byte. -/
def env42 : StepEnv :=
  { reflinkRes := -95, sendfileRes := .ioErr EAGAIN, reads := [],
    writeRes := .ioOk 1, rlAllow := false }

/-- A further notification after the buffer has drained. -/
def env43 : StepEnv :=
  { reflinkRes := -95, sendfileRes := .ioErr EAGAIN, reads := [],
    writeRes := .ioErr EAGAIN, rlAllow := false }

/-- Uncompressed 2-byte export: `sendfile` moves both bytes; limiter
allows. -/
def envSf2 : StepEnv :=
  { reflinkRes := -95, sendfileRes := .ioOk 2, reads := [],
    writeRes := .ioErr EAGAIN, rlAllow := true }

/-- Start oracle that fails at `import_compress_init` (after the snapshot
descriptor 5 has already been stored into `input_fd`). -/
def startEnvFail7 : StartEnv :=
  { nonblockRes := 0, strdupOk := true, openRes := .ok 3,
    fstatRes := .ok ⟨100, true⟩, snapshotRes := .ok 5,
    compressInitRes := -12, addIoRes := 0, addDeferRes := 0,
    setEnabledRes := 0 }

/-- Retry oracle: everything succeeds, `open` yields 6 and the snapshot
yields 7. -/
def startEnvOk7 : StartEnv :=
  { nonblockRes := 0, strdupOk := true, openRes := .ok 6,
    fstatRes := .ok ⟨100, true⟩, snapshotRes := .ok 7,
    compressInitRes := 0, addIoRes := 0, addDeferRes := 0,
    setEnabledRes := 0 }

/-- Start oracle where the opened path is a directory (not regular). -/
def startEnvDir : StartEnv :=
  { nonblockRes := 0, strdupOk := true, openRes := .ok 3,
    fstatRes := .ok ⟨4096, false⟩, snapshotRes := .error (-95),
    compressInitRes := 0, addIoRes := 0, addDeferRes := 0,
    setEnabledRes := 0 }

/-- State after the would-block write of the xz export of the 1-byte file:
pending buffer `[7]`, input exhausted. -/
def e4mid : RawExport := (raw_export_process (startedState .xz 1) env41).e

/-- A started uncompressed engine whose both fast-path latches are set. -/
def eLatched : RawExport :=
  { startedState .uncompressed 3 with
    tried_reflink := true, tried_sendfile := true }

/-- Oracle where `sendfile` would block. -/
def envEagain : StepEnv :=
  { reflinkRes := -95, sendfileRes := .ioErr EAGAIN, reads := [],
    writeRes := .ioErr EAGAIN, rlAllow := false }

/-! # Lemmas -/

theorem report_rl_false (e : RawExport) :
    raw_export_report_progress e false = (e, none) := by
  unfold raw_export_report_progress
  simp

theorem report_cases (e : RawExport) (rl : Bool) :
    raw_export_report_progress e rl = (e, none) ∨
    (raw_export_report_progress e rl =
        ({ e with last_percent := percentOf e.written_uncompressed e.st_size },
          some (percentOf e.written_uncompressed e.st_size)) ∧
      percentOf e.written_uncompressed e.st_size ≠ e.last_percent ∧
      rl = true) := by
  unfold raw_export_report_progress
  by_cases h1 : percentOf e.written_uncompressed e.st_size = e.last_percent
  · left; simp [h1]
  · by_cases h2 : rl = false
    · left; simp [h1, h2]
    · right
      rw [Bool.not_eq_false] at h2
      simp [h1, h2]

theorem percentOf_le_100 (w s : Nat) : percentOf w s ≤ 100 := by
  unfold percentOf
  split
  · exact le_rfl
  · rename_i h
    push_neg at h
    have hs : 0 < s := lt_of_le_of_lt (Nat.zero_le w) h
    have h2 : w * 100 / s < 100 := by
      rw [Nat.div_lt_iff_lt_mul hs]
      calc w * 100 < s * 100 := mul_lt_mul_of_pos_right h (by norm_num)
        _ = 100 * s := Nat.mul_comm s 100
    calc w * 100 % UINT64_LIMIT / s % UINT32_LIMIT
        ≤ w * 100 % UINT64_LIMIT / s := Nat.mod_le _ _
      _ ≤ w * 100 / s := Nat.div_le_div_right (Nat.mod_le _ _)
      _ ≤ 100 := le_of_lt h2

theorem percentOf_no_overflow {w s : Nat} (h : w * 100 < UINT64_LIMIT) :
    percentOf w s = if s ≤ w then 100 else w * 100 / s := by
  unfold percentOf
  by_cases hsw : s ≤ w
  · simp [hsw]
  · simp only [hsw, if_false]
    push_neg at hsw
    have hs : 0 < s := lt_of_le_of_lt (Nat.zero_le w) hsw
    have h2 : w * 100 / s < 100 := by
      rw [Nat.div_lt_iff_lt_mul hs]
      calc w * 100 < s * 100 := mul_lt_mul_of_pos_right hsw (by norm_num)
        _ = 100 * s := Nat.mul_comm s 100
    rw [Nat.mod_eq_of_lt h,
      Nat.mod_eq_of_lt (lt_trans h2 (by norm_num [UINT32_LIMIT]))]

theorem percentOf_mono {s : Nat} (hs : s * 100 < UINT64_LIMIT) {w1 w2 : Nat}
    (h12 : w1 ≤ w2) : percentOf w1 s ≤ percentOf w2 s := by
  by_cases h2 : s ≤ w2
  · have hw2 : percentOf w2 s = 100 := by unfold percentOf; simp [h2]
    rw [hw2]; exact percentOf_le_100 w1 s
  · push_neg at h2
    have h1 : w1 < s := lt_of_le_of_lt h12 h2
    have hb2 : w2 * 100 < UINT64_LIMIT :=
      lt_trans (mul_lt_mul_of_pos_right h2 (by norm_num)) hs
    have hb1 : w1 * 100 < UINT64_LIMIT :=
      lt_of_le_of_lt (Nat.mul_le_mul_right 100 h12) hb2
    rw [percentOf_no_overflow hb1, percentOf_no_overflow hb2]
    simp only [not_le.mpr h1, not_le.mpr h2, if_false]
    exact Nat.div_le_div_right (Nat.mul_le_mul_right 100 h12)

theorem addBytes_state (n : Nat) (r : LoopRes) :
    (r.addBytes n).state = r.state := by
  cases r <;> rfl

theorem addBytes_consumed (n : Nat) (r : LoopRes) :
    (r.addBytes n).consumed = n + r.consumed := by
  cases r <;> rfl

theorem addBytes_rcode (n : Nat) (r : LoopRes) :
    (r.addBytes n).rcode = r.rcode := by
  cases r <;> rfl

theorem processLoop_preserved (reads : List ReadEvent) : ∀ (e : RawExport),
    (processLoop e reads).state.compressType = e.compressType ∧
    (processLoop e reads).state.tried_reflink = e.tried_reflink ∧
    (processLoop e reads).state.tried_sendfile = e.tried_sendfile ∧
    (processLoop e reads).state.last_percent = e.last_percent ∧
    (processLoop e reads).state.st_size = e.st_size ∧
    (processLoop e reads).state.written_compressed = e.written_compressed ∧
    (processLoop e reads).state.input_fd = e.input_fd ∧
    (processLoop e reads).state.output_fd = e.output_fd ∧
    (processLoop e reads).state.st_isReg = e.st_isReg ∧
    (processLoop e reads).state.path_set = e.path_set := by
  induction reads with
  | nil =>
      intro e
      rw [processLoop.eq_def]
      by_cases hb : 0 < e.buffer.length
      · simp [hb, LoopRes.state]
      · by_cases he : e.eof = true <;> simp [hb, he, LoopRes.state]
  | cons ev rest ih =>
      intro e
      rw [processLoop.eq_def]
      by_cases hb : 0 < e.buffer.length
      · simp [hb, LoopRes.state]
      · by_cases he : e.eof = true
        · simp [hb, he, LoopRes.state]
        · cases ev with
          | rErr errno => simp [hb, he, LoopRes.state]
          | rEof rc out =>
              by_cases hrc : rc < 0
              · simp [hb, he, hrc, LoopRes.state]
              · simp only [hb, he, hrc, if_neg, if_false]
                simpa using
                  ih { e with eof := true, buffer := e.buffer ++ out }
          | rData chunk rc out =>
              by_cases hrc : rc < 0
              · simp [hb, he, hrc, LoopRes.state]
              · have he' : e.eof = false := by simpa using he
                simp only [hb, he, hrc, if_neg, if_false]
                simpa [addBytes_state, he'] using
                  ih { e with
                    written_uncompressed :=
                      (e.written_uncompressed + chunk.length) % UINT64_LIMIT,
                    buffer := e.buffer ++ out }

theorem processLoop_spec (S : Nat) (hS : S < UINT64_LIMIT)
    (reads : List ReadEvent) : ∀ (e : RawExport) (off : Nat),
    readsConsistent S off reads = true →
    e.written_uncompressed = off → off ≤ S → (e.eof = true → off = S) →
    (processLoop e reads).state.written_uncompressed
        = off + (processLoop e reads).consumed ∧
    off + (processLoop e reads).consumed ≤ S ∧
    ((processLoop e reads).state.eof = true →
      off + (processLoop e reads).consumed = S) ∧
    (∀ r, (processLoop e reads).rcode = some r → 0 ≤ r →
      r = 0 ∧ off + (processLoop e reads).consumed = S) := by
  induction reads with
  | nil =>
      intro e off _ hw hoff heof
      rw [processLoop.eq_def]
      by_cases hb : 0 < e.buffer.length
      · rw [if_pos hb]
        exact ⟨by simpa using hw, by simpa using hoff,
          fun h => by simpa using heof h, by simp [LoopRes.rcode]⟩
      · rw [if_neg hb]
        by_cases he : e.eof = true
        · rw [if_pos he]
          exact ⟨by simpa using hw, by simpa using hoff,
            fun _ => by simpa using heof he,
            fun r hr _ => ⟨by simp [LoopRes.rcode] at hr; omega,
              by simpa using heof he⟩⟩
        · rw [if_neg he]
          exact ⟨by simpa using hw, by simpa using hoff,
            fun h => absurd h he, by simp [LoopRes.rcode]⟩
  | cons ev rest ih =>
      intro e off hcons hw hoff heof
      rw [processLoop.eq_def]
      by_cases hb : 0 < e.buffer.length
      · rw [if_pos hb]
        exact ⟨by simpa using hw, by simpa using hoff,
          fun h => by simpa using heof h, by simp [LoopRes.rcode]⟩
      · rw [if_neg hb]
        by_cases he : e.eof = true
        · rw [if_pos he]
          exact ⟨by simpa using hw, by simpa using hoff,
            fun _ => by simpa using heof he,
            fun r hr _ => ⟨by simp [LoopRes.rcode] at hr; omega,
              by simpa using heof he⟩⟩
        · rw [if_neg he]
          cases ev with
          | rErr errno =>
              have hcons' : 0 < errno ∧ readsConsistent S off rest = true := by
                simpa [readsConsistent] using hcons
              refine ⟨by simpa using hw, by simpa using hoff,
                fun h => absurd h he, ?_⟩
              intro r hr hr0
              simp only [LoopRes.rcode, Option.some.injEq] at hr
              exfalso
              have hpos : (0 : Int) < (errno : Int) := by
                exact_mod_cast hcons'.1
              omega
          | rEof rc out =>
              have hcons' : off = S ∧ readsConsistent S off rest = true := by
                simpa [readsConsistent] using hcons
              by_cases hrc : rc < 0
              · simp only [hrc, if_true, LoopRes.state, LoopRes.consumed,
                  LoopRes.rcode, Option.some.injEq]
                refine ⟨by simpa using hw, by simpa using hoff,
                  fun _ => by simpa using hcons'.1, ?_⟩
                intro r hr hr0
                exfalso
                omega
              · simp only [hrc, if_false]
                have := ih { e with eof := true, buffer := e.buffer ++ out } off
                  hcons'.2 (by simpa using hw) hoff (fun _ => hcons'.1)
                simpa using this
          | rData chunk rc out =>
              have hcons' : (0 < chunk.length ∧
                  chunk.length ≤ COPY_BUFFER_SIZE ∧
                  off + chunk.length ≤ S) ∧
                  readsConsistent S (off + chunk.length) rest = true := by
                simpa [readsConsistent] using hcons
              have hlen : 0 < chunk.length := hcons'.1.1
              have hbound : off + chunk.length ≤ S := hcons'.1.2.2
              have hmod : (e.written_uncompressed + chunk.length) % UINT64_LIMIT
                  = off + chunk.length := by
                rw [hw]; exact Nat.mod_eq_of_lt (lt_of_le_of_lt hbound hS)
              by_cases hrc : rc < 0
              · simp only [hrc, if_true, LoopRes.state, LoopRes.consumed,
                  LoopRes.rcode, Option.some.injEq]
                refine ⟨by simpa using hmod, hbound, ?_, ?_⟩
                · intro h
                  have := heof (by simpa using h)
                  omega
                · intro r hr hr0
                  exfalso
                  omega
              · simp only [hrc, if_false, addBytes_state, addBytes_consumed,
                  addBytes_rcode]
                obtain ⟨i1, i2, i3, i4⟩ :=
                  ih { e with
                      written_uncompressed :=
                        (e.written_uncompressed + chunk.length) % UINT64_LIMIT,
                      buffer := e.buffer ++ out } (off + chunk.length)
                    hcons'.2 (by simpa using hmod) hbound
                    (fun h => by
                      have := heof (by simpa using h)
                      omega)
                refine ⟨?_, ?_, ?_, ?_⟩
                · simpa using by rw [i1]; omega
                · omega
                · intro h
                  have := i3 (by simpa using h)
                  omega
                · intro r hr hr0
                  obtain ⟨j1, j2⟩ := i4 r (by simpa using hr) hr0
                  exact ⟨j1, by omega⟩

theorem report_preserved (e : RawExport) (rl : Bool) :
    (raw_export_report_progress e rl).1.compressType = e.compressType ∧
    (raw_export_report_progress e rl).1.buffer = e.buffer ∧
    (raw_export_report_progress e rl).1.written_compressed
        = e.written_compressed ∧
    (raw_export_report_progress e rl).1.written_uncompressed
        = e.written_uncompressed ∧
    (raw_export_report_progress e rl).1.st_size = e.st_size ∧
    (raw_export_report_progress e rl).1.st_isReg = e.st_isReg ∧
    (raw_export_report_progress e rl).1.eof = e.eof ∧
    (raw_export_report_progress e rl).1.tried_reflink = e.tried_reflink ∧
    (raw_export_report_progress e rl).1.tried_sendfile = e.tried_sendfile ∧
    (raw_export_report_progress e rl).1.input_fd = e.input_fd ∧
    (raw_export_report_progress e rl).1.output_fd = e.output_fd ∧
    (raw_export_report_progress e rl).1.path_set = e.path_set := by
  rcases report_cases e rl with h | ⟨h, _, _⟩ <;> rw [h] <;> simp

theorem report_emitted (e : RawExport) (rl : Bool) :
    ((raw_export_report_progress e rl).2 = none →
      (raw_export_report_progress e rl).1.last_percent = e.last_percent) ∧
    (∀ p, (raw_export_report_progress e rl).2 = some p →
      p = percentOf e.written_uncompressed e.st_size ∧
      p ≠ e.last_percent ∧
      (raw_export_report_progress e rl).1.last_percent = p) := by
  rcases report_cases e rl with h | ⟨h, hne, _⟩ <;> rw [h]
  · simp
  · constructor
    · intro h'
      simp at h'
    · intro p hp
      simp only [Option.some.injEq] at hp
      subst hp
      exact ⟨rfl, hne, by simp⟩

theorem continueGeneric_spec (S : Nat) (hS : S < UINT64_LIMIT)
    (e : RawExport) (env : StepEnv) (ra sa : Bool) (off : Nat)
    (hreads : readsConsistent S off env.reads = true)
    (hwrite : writeConsistent env.writeRes = true)
    (hw : e.written_uncompressed = off) (hoff : off ≤ S)
    (heof : e.eof = true → off = S) (hst : e.st_size = S) :
    (continueGeneric e env ra sa).e.st_size = S ∧
    (continueGeneric e env ra sa).e.written_uncompressed
        = off + (continueGeneric e env ra sa).bytesFromInput ∧
    off + (continueGeneric e env ra sa).bytesFromInput ≤ S ∧
    ((continueGeneric e env ra sa).e.eof = true →
      off + (continueGeneric e env ra sa).bytesFromInput = S) ∧
    ((continueGeneric e env ra sa).finished = some 0 →
      off + (continueGeneric e env ra sa).bytesFromInput = S) ∧
    ((continueGeneric e env ra sa).emitted = none →
      (continueGeneric e env ra sa).e.last_percent = e.last_percent) ∧
    (∀ p, (continueGeneric e env ra sa).emitted = some p →
      p = percentOf (off + (continueGeneric e env ra sa).bytesFromInput) S ∧
      p ≠ e.last_percent ∧
      (continueGeneric e env ra sa).e.last_percent = p) := by
  obtain ⟨l1, l2, l3, l4⟩ :=
    processLoop_spec S hS env.reads e off hreads hw hoff heof
  obtain ⟨p1, p2, p3, p4, p5, p6, p7, p8, p9, p10⟩ :=
    processLoop_preserved env.reads e
  cases hpl : processLoop e env.reads with
  | loopFinish e1 r c =>
      rw [hpl] at l1 l2 l3 l4 p4 p5
      simp only [LoopRes.state, LoopRes.consumed, LoopRes.rcode] at l1
      simp only [LoopRes.state, LoopRes.consumed, LoopRes.rcode] at l2 l3 l4 p4 p5
      simp only [continueGeneric, hpl]
      refine ⟨by rw [p5, hst], l1, l2, l3, ?_, fun _ => p4, by simp⟩
      intro h
      simp only [Option.some.injEq] at h
      exact (l4 r rfl (by omega)).2
  | loopStarve e1 c =>
      rw [hpl] at l1 l2 l3 p4 p5
      simp only [LoopRes.state, LoopRes.consumed] at l1 l2 l3 p4 p5
      simp only [continueGeneric, hpl]
      exact ⟨by rw [p5, hst], l1, l2, l3, by simp, fun _ => p4, by simp⟩
  | loopReady e1 c =>
      rw [hpl] at l1 l2 l3 p4 p5
      simp only [LoopRes.state, LoopRes.consumed] at l1 l2 l3 p4 p5
      cases hw2 : env.writeRes with
      | ioErr errno =>
          rw [hw2] at hwrite
          simp only [writeConsistent, decide_eq_true_eq] at hwrite
          by_cases heag : errno = EAGAIN
          · simp only [continueGeneric, hpl, hw2, heag, if_true]
            exact ⟨by rw [p5, hst], l1, l2, l3, by simp, fun _ => p4, by simp⟩
          · simp only [continueGeneric, hpl, hw2, if_neg heag]
            refine ⟨by rw [p5, hst], l1, l2, l3, ?_, fun _ => p4, by simp⟩
            intro h
            simp only [Option.some.injEq] at h
            exfalso
            have hpos : (0 : Int) < (errno : Int) := by exact_mod_cast hwrite
            omega
      | ioOk m =>
          have rp := report_preserved
            { e1 with
              buffer := e1.buffer.drop m,
              written_compressed :=
                (e1.written_compressed + m) % UINT64_LIMIT }
            env.rlAllow
          have re := report_emitted
            { e1 with
              buffer := e1.buffer.drop m,
              written_compressed :=
                (e1.written_compressed + m) % UINT64_LIMIT }
            env.rlAllow
          obtain ⟨q1, q2, q3, q4, q5, q6, q7, q8, q9, q10, q11, q12⟩ := rp
          simp only [continueGeneric, hpl, hw2]
          refine ⟨?g1, ?g2, l2, ?g3, by simp, ?g4, ?g5⟩
          case g1 => rw [q5]; simpa [p5] using hst
          case g2 => rw [q4]; simpa using l1
          case g3 =>
            rw [q7]
            intro h
            exact l3 (by simpa using h)
          case g4 =>
            intro h
            rw [re.1 h]
            simpa using p4
          case g5 =>
            intro p hp
            obtain ⟨h1, h2, h3⟩ := re.2 p hp
            exact ⟨by simpa [l1, p5, hst] using h1, by simpa [p4] using h2, h3⟩

theorem afterReflink_spec (S : Nat) (hS : S < UINT64_LIMIT)
    (e : RawExport) (env : StepEnv) (ra : Bool) (off : Nat)
    (hsf : sendfileConsistent S off env.sendfileRes = true)
    (hreads : readsConsistent S off env.reads = true)
    (hwrite : writeConsistent env.writeRes = true)
    (hw : e.written_uncompressed = off) (hoff : off ≤ S)
    (heof : e.eof = true → off = S) (hst : e.st_size = S) :
    (afterReflink e env ra).e.st_size = S ∧
    (afterReflink e env ra).e.written_uncompressed
        = off + (afterReflink e env ra).bytesFromInput ∧
    off + (afterReflink e env ra).bytesFromInput ≤ S ∧
    ((afterReflink e env ra).e.eof = true →
      off + (afterReflink e env ra).bytesFromInput = S) ∧
    ((afterReflink e env ra).finished = some 0 →
      off + (afterReflink e env ra).bytesFromInput = S) ∧
    ((afterReflink e env ra).emitted = none →
      (afterReflink e env ra).e.last_percent = e.last_percent) ∧
    (∀ p, (afterReflink e env ra).emitted = some p →
      p = percentOf (off + (afterReflink e env ra).bytesFromInput) S ∧
      p ≠ e.last_percent ∧
      (afterReflink e env ra).e.last_percent = p) := by
  by_cases hsa : e.tried_sendfile = false ∧ e.compressType = .uncompressed
  · cases hwsf : env.sendfileRes with
    | ioErr errno =>
        rw [hwsf] at hsf
        by_cases heag : errno = EAGAIN
        · simp only [afterReflink, if_pos hsa, hwsf, if_pos heag]
          exact ⟨hst, by simpa using hw, by simpa using hoff,
            fun h => by simpa using heof h, by simp, by simp, by simp⟩
        · simp only [afterReflink, if_pos hsa, hwsf, if_neg heag]
          exact continueGeneric_spec S hS { e with tried_sendfile := true }
            env ra true off hreads hwrite (by simpa using hw) hoff
            (fun h => heof (by simpa using h)) (by simpa using hst)
    | ioOk l =>
        rw [hwsf] at hsf
        simp only [sendfileConsistent, decide_eq_true_eq] at hsf
        obtain ⟨hl1, hl2, hl3⟩ := hsf
        by_cases hl0 : l = 0
        · simp only [afterReflink, if_pos hsa, hwsf, if_pos hl0]
          have hoffS : off = S := hl3.mp hl0
          exact ⟨hst, by simpa using hw, by simpa using hoff,
            fun _ => by simpa using hoffS, fun _ => by simpa using hoffS,
            by simp, by simp⟩
        · simp only [afterReflink, if_pos hsa, hwsf, if_neg hl0]
          have hoffne : off ≠ S := fun h => hl0 (hl3.mpr h)
          have hmod : (e.written_uncompressed + l) % UINT64_LIMIT
              = off + l := by
            rw [hw]; exact Nat.mod_eq_of_lt (lt_of_le_of_lt hl2 hS)
          have rp := report_preserved
            { e with
              written_uncompressed :=
                (e.written_uncompressed + l) % UINT64_LIMIT,
              written_compressed :=
                (e.written_compressed + l) % UINT64_LIMIT }
            env.rlAllow
          have re := report_emitted
            { e with
              written_uncompressed :=
                (e.written_uncompressed + l) % UINT64_LIMIT,
              written_compressed :=
                (e.written_compressed + l) % UINT64_LIMIT }
            env.rlAllow
          obtain ⟨q1, q2, q3, q4, q5, q6, q7, q8, q9, q10, q11, q12⟩ := rp
          refine ⟨?g1, ?g2, hl2, ?g3, by simp, ?g4, ?g5⟩
          case g1 => rw [q5]; simpa using hst
          case g2 => rw [q4]; simpa using hmod
          case g3 =>
            rw [q7]
            intro h
            have := heof (by simpa using h)
            omega
          case g4 =>
            intro h
            simpa using re.1 h
          case g5 =>
            intro p hp
            obtain ⟨h1, h2, h3⟩ := re.2 p hp
            exact ⟨by simpa [hmod, hst] using h1, by simpa using h2, h3⟩
  · simp only [afterReflink, if_neg hsa]
    exact continueGeneric_spec S hS e env ra false off hreads hwrite hw hoff
      heof hst

theorem raw_export_process_spec (S : Nat) (hS : S < UINT64_LIMIT)
    (e : RawExport) (env : StepEnv) (off : Nat)
    (hcons : stepConsistent S off env = true)
    (hw : e.written_uncompressed = off) (hoff : off ≤ S)
    (heof : e.eof = true → off = S) (hst : e.st_size = S) :
    (raw_export_process e env).e.st_size = S ∧
    (raw_export_process e env).e.written_uncompressed
        = off + (raw_export_process e env).bytesFromInput ∧
    off + (raw_export_process e env).bytesFromInput ≤ S ∧
    ((raw_export_process e env).e.eof = true →
      off + (raw_export_process e env).bytesFromInput = S) ∧
    ((raw_export_process e env).finished = some 0 →
      (raw_export_process e env).reflinkSucceeded = false →
      off + (raw_export_process e env).bytesFromInput = S) ∧
    ((raw_export_process e env).emitted = none →
      (raw_export_process e env).e.last_percent = e.last_percent) ∧
    (∀ p, (raw_export_process e env).emitted = some p →
      p = percentOf (off + (raw_export_process e env).bytesFromInput) S ∧
      p ≠ e.last_percent ∧
      (raw_export_process e env).e.last_percent = p) := by
  have hcons' : sendfileConsistent S off env.sendfileRes = true ∧
      readsConsistent S off env.reads = true ∧
      writeConsistent env.writeRes = true := by
    simpa [stepConsistent, Bool.and_eq_true, and_assoc] using hcons
  obtain ⟨hsf, hreads, hwrite⟩ := hcons'
  by_cases hra : e.tried_reflink = false ∧ e.compressType = .uncompressed
  · by_cases hrr : 0 ≤ env.reflinkRes
    · simp only [raw_export_process, if_pos hra, if_pos hrr]
      exact ⟨hst, by simpa using hw, by simpa using hoff,
        fun h => by simpa using heof h,
        fun _ h => by simp at h, by simp, by simp⟩
    · simp only [raw_export_process, if_pos hra, if_neg hrr]
      have h := afterReflink_spec S hS { e with tried_reflink := true }
        env true off hsf hreads hwrite (by simpa using hw) hoff
        (fun h => heof (by simpa using h)) (by simpa using hst)
      obtain ⟨a1, a2, a3, a4, a5, a6, a7⟩ := h
      exact ⟨a1, a2, a3, a4, fun h _ => a5 h,
        fun h => by simpa using a6 h,
        fun p hp => ⟨(a7 p hp).1, by simpa using (a7 p hp).2.1,
          (a7 p hp).2.2⟩⟩
  · simp only [raw_export_process, if_neg hra]
    obtain ⟨a1, a2, a3, a4, a5, a6, a7⟩ :=
      afterReflink_spec S hS e env false off hsf hreads hwrite hw hoff
        heof hst
    exact ⟨a1, a2, a3, a4, fun h _ => a5 h, a6, a7⟩

theorem continueGeneric_flags (e : RawExport) (env : StepEnv) (ra sa : Bool) :
    (continueGeneric e env ra sa).ret = 0 ∧
    (continueGeneric e env ra sa).reflinkAttempted = ra ∧
    (continueGeneric e env ra sa).reflinkSucceeded = false ∧
    (continueGeneric e env ra sa).sendfileAttempted = sa ∧
    (continueGeneric e env ra sa).e.tried_reflink = e.tried_reflink ∧
    (continueGeneric e env ra sa).e.tried_sendfile = e.tried_sendfile ∧
    (continueGeneric e env ra sa).e.compressType = e.compressType := by
  obtain ⟨p1, p2, p3, _, _, _, _, _, _, _⟩ := processLoop_preserved env.reads e
  cases hpl : processLoop e env.reads with
  | loopFinish e1 r c =>
      rw [hpl] at p1 p2 p3
      simp only [LoopRes.state] at p1 p2 p3
      simp [continueGeneric, hpl, p1, p2, p3]
  | loopStarve e1 c =>
      rw [hpl] at p1 p2 p3
      simp only [LoopRes.state] at p1 p2 p3
      simp [continueGeneric, hpl, p1, p2, p3]
  | loopReady e1 c =>
      rw [hpl] at p1 p2 p3
      simp only [LoopRes.state] at p1 p2 p3
      cases hw2 : env.writeRes with
      | ioErr errno =>
          by_cases heag : errno = EAGAIN <;>
            simp [continueGeneric, hpl, hw2, heag, p1, p2, p3]
      | ioOk m =>
          rcases report_cases
            { e1 with
              buffer := e1.buffer.drop m,
              written_compressed :=
                (e1.written_compressed + m) % UINT64_LIMIT }
            env.rlAllow with h | ⟨h, _, _⟩ <;>
          · simp only [continueGeneric, hpl, hw2]
            rw [h]
            simp [p1, p2, p3]

theorem afterReflink_flags (e : RawExport) (env : StepEnv) (ra : Bool) :
    (afterReflink e env ra).ret = 0 ∧
    (afterReflink e env ra).reflinkAttempted = ra ∧
    (afterReflink e env ra).reflinkSucceeded = false ∧
    (afterReflink e env ra).e.tried_reflink = e.tried_reflink ∧
    (afterReflink e env ra).e.compressType = e.compressType ∧
    (e.tried_sendfile = true →
      (afterReflink e env ra).e.tried_sendfile = true ∧
      (afterReflink e env ra).sendfileAttempted = false) ∧
    (env.sendfileRes = .ioErr EAGAIN →
      (afterReflink e env ra).e.tried_sendfile = e.tried_sendfile) := by
  obtain ⟨f1, f2, f3, f4, f5, f6, f7⟩ := continueGeneric_flags e env ra false
  by_cases hsa : e.tried_sendfile = false ∧ e.compressType = .uncompressed
  · cases hwsf : env.sendfileRes with
    | ioErr errno =>
        by_cases heag : errno = EAGAIN
        · simp [afterReflink, hsa.1, hsa.2, hwsf, heag]
        · obtain ⟨g1, g2, g3, g4, g5, g6, g7⟩ :=
            continueGeneric_flags { e with tried_sendfile := true } env ra true
          simp only [afterReflink, if_pos hsa, hwsf, if_neg heag]
          refine ⟨g1, g2, g3, by simpa using g5, by simpa using g7, ?_, ?_⟩
          · intro h
            rw [hsa.1] at h
            cases h
          · intro h
            injection h with h2
            exact absurd h2 heag
    | ioOk l =>
        by_cases hl0 : l = 0
        · simp [afterReflink, hsa.1, hsa.2, hwsf, hl0]
        · simp only [afterReflink, if_pos hsa, hwsf, if_neg hl0]
          rcases report_cases
            { e with
              written_uncompressed :=
                (e.written_uncompressed + l) % UINT64_LIMIT,
              written_compressed :=
                (e.written_compressed + l) % UINT64_LIMIT }
            env.rlAllow with h | ⟨h, _, _⟩ <;>
          · rw [h]
            simp [hsa.1]
  · simp only [afterReflink, if_neg hsa]
    exact ⟨f1, f2, f3, f5, f7, fun h => ⟨by rw [f6, h], f4⟩, fun _ => f6⟩

theorem process_flags (e : RawExport) (env : StepEnv) :
    (raw_export_process e env).ret = 0 ∧
    (e.tried_reflink = true →
      (raw_export_process e env).e.tried_reflink = true ∧
      (raw_export_process e env).reflinkAttempted = false) ∧
    (e.tried_sendfile = true →
      (raw_export_process e env).e.tried_sendfile = true ∧
      (raw_export_process e env).sendfileAttempted = false) ∧
    (env.sendfileRes = .ioErr EAGAIN →
      (raw_export_process e env).e.tried_sendfile = e.tried_sendfile) ∧
    ((raw_export_process e env).e.tried_reflink = true →
      e.tried_reflink = true ∨
      (raw_export_process e env).reflinkAttempted = true) := by
  by_cases hra : e.tried_reflink = false ∧ e.compressType = .uncompressed
  · by_cases hrr : 0 ≤ env.reflinkRes
    · simp [raw_export_process, hra.1, hra.2, hrr]
    · obtain ⟨f1, f2, f3, f4, f5, f6, f7⟩ :=
        afterReflink_flags { e with tried_reflink := true } env true
      simp only [raw_export_process, if_pos hra, if_neg hrr]
      refine ⟨f1, ?_, ?_, ?_, fun _ => Or.inr f2⟩
      · intro h
        rw [hra.1] at h
        cases h
      · intro h
        exact f6 (by simpa using h)
      · intro h
        simpa using f7 h
  · obtain ⟨f1, f2, f3, f4, f5, f6, f7⟩ := afterReflink_flags e env false
    simp only [raw_export_process, if_neg hra]
    refine ⟨f1, fun h => ⟨by rw [f4, h], f2⟩, f6, f7, fun _ => Or.inl ?_⟩
    rw [← f4]
    assumption

theorem run_to_finish_spec (S : Nat) (hS : S < UINT64_LIMIT) :
    ∀ (envs : List StepEnv) (e : RawExport) (off : Nat),
    runConsistent S off e envs = true →
    e.written_uncompressed = off → off ≤ S → (e.eof = true → off = S) →
    e.st_size = S →
    ∀ o, runToFinish e envs = some o → o.finished = some 0 →
      o.reflinkSucceeded = false → o.e.written_uncompressed = S := by
  intro envs
  induction envs with
  | nil =>
      intro e off _ _ _ _ _ o ho
      simp [runToFinish] at ho
  | cons env rest ih =>
      intro e off hcons hw hoff heof hst o ho hfin hrs
      have hcons2 : stepConsistent S off env = true ∧
          runConsistent S (off + (raw_export_process e env).bytesFromInput)
            (raw_export_process e env).e rest = true := by
        simpa [runConsistent, Bool.and_eq_true] using hcons
      obtain ⟨s1, s2, s3, s4, s5, s6, s7⟩ :=
        raw_export_process_spec S hS e env off hcons2.1 hw hoff heof hst
      simp only [runToFinish] at ho
      by_cases hf : (raw_export_process e env).finished.isSome
      · rw [if_pos hf] at ho
        have : o = raw_export_process e env := by
          simpa using ho.symm
        subst this
        rw [s2]
        exact s5 hfin hrs
      · rw [if_neg hf] at ho
        exact ih (raw_export_process e env).e
          (off + (raw_export_process e env).bytesFromInput) hcons2.2 s2 s3 s4
          s1 o ho hfin hrs

theorem run_pairwise (S : Nat) (hS100 : S * 100 < UINT64_LIMIT) :
    ∀ (envs : List StepEnv) (e : RawExport) (off : Nat),
    runConsistent S off e envs = true →
    e.written_uncompressed = off → off ≤ S → (e.eof = true → off = S) →
    e.st_size = S →
    (e.last_percent = UINT32_LIMIT - 1 ∨
      e.last_percent ≤ percentOf off S) →
    List.Pairwise (· < ·) (runEmissions e envs) ∧
    ∀ p ∈ runEmissions e envs, p ≤ 100 ∧
      (e.last_percent ≠ UINT32_LIMIT - 1 → e.last_percent < p) := by
  have hS : S < UINT64_LIMIT :=
    lt_of_le_of_lt (Nat.le_mul_of_pos_right S (by norm_num)) hS100
  intro envs
  induction envs with
  | nil =>
      intro e off _ _ _ _ _ _
      simp [runEmissions]
  | cons env rest ih =>
      intro e off hcons hw hoff heof hst hlast
      have hcons2 : stepConsistent S off env = true ∧
          runConsistent S (off + (raw_export_process e env).bytesFromInput)
            (raw_export_process e env).e rest = true := by
        simpa [runConsistent, Bool.and_eq_true] using hcons
      obtain ⟨s1, s2, s3, s4, s5, s6, s7⟩ :=
        raw_export_process_spec S hS e env off hcons2.1 hw hoff heof hst
      have hoffle : off ≤ off + (raw_export_process e env).bytesFromInput :=
        Nat.le_add_right off _
      cases hem : (raw_export_process e env).emitted with
      | none =>
          have hlast2 :
              (raw_export_process e env).e.last_percent = UINT32_LIMIT - 1 ∨
              (raw_export_process e env).e.last_percent ≤
                percentOf (off + (raw_export_process e env).bytesFromInput)
                  S := by
            rw [s6 hem]
            rcases hlast with h | h
            · exact Or.inl h
            · exact Or.inr (le_trans h (percentOf_mono hS100 hoffle))
          have IH := ih (raw_export_process e env).e
            (off + (raw_export_process e env).bytesFromInput) hcons2.2 s2 s3
            s4 s1 hlast2
          have hrw : runEmissions e (env :: rest)
              = runEmissions (raw_export_process e env).e rest := by
            simp [runEmissions, hem]
          rw [hrw]
          refine ⟨IH.1, fun p hp => ⟨(IH.2 p hp).1, fun hne => ?_⟩⟩
          have := (IH.2 p hp).2
          rw [s6 hem] at this
          exact this hne
      | some q =>
          obtain ⟨e1, e2, e3⟩ := s7 q hem
          have hq100 : q ≤ 100 := by
            rw [e1]; exact percentOf_le_100 _ _
          have hqsent : q ≠ UINT32_LIMIT - 1 := by
            have : (100 : Nat) < UINT32_LIMIT - 1 := by
              norm_num [UINT32_LIMIT]
            omega
          have hlast2 :
              (raw_export_process e env).e.last_percent = UINT32_LIMIT - 1 ∨
              (raw_export_process e env).e.last_percent ≤
                percentOf (off + (raw_export_process e env).bytesFromInput)
                  S := by
            rw [e3, e1]
            exact Or.inr le_rfl
          have IH := ih (raw_export_process e env).e
            (off + (raw_export_process e env).bytesFromInput) hcons2.2 s2 s3
            s4 s1 hlast2
          have hall : ∀ p ∈ runEmissions (raw_export_process e env).e rest,
              q < p := by
            intro p hp
            have := (IH.2 p hp).2
            rw [e3] at this
            exact this hqsent
          have hrw : runEmissions e (env :: rest)
              = q :: runEmissions (raw_export_process e env).e rest := by
            simp [runEmissions, hem]
          rw [hrw]
          have hlastq : e.last_percent ≠ UINT32_LIMIT - 1 →
              e.last_percent < q := by
            intro hne
            rcases hlast with h | h
            · exact absurd h hne
            · have hle : e.last_percent ≤ q := by
                rw [e1]
                exact le_trans h (percentOf_mono hS100 hoffle)
              exact lt_of_le_of_ne hle (Ne.symm e2)
          constructor
          · exact List.pairwise_cons.mpr ⟨hall, IH.1⟩
          · intro p hp
            rcases List.mem_cons.mp hp with rfl | hp'
            · exact ⟨hq100, hlastq⟩
            · refine ⟨(IH.2 p hp').1, fun hne => ?_⟩
              exact lt_trans (hlastq hne) (hall p hp')

theorem take_first_finish_count (tr : List StepOut) :
    finishCount (takeToFirstFinish tr) ≤ 1 ∧
    ((tr.any fun o => o.finished.isSome) = true →
      finishCount (takeToFirstFinish tr) = 1) := by
  induction tr with
  | nil => simp [takeToFirstFinish, finishCount]
  | cons o rest ih =>
      by_cases hf : o.finished.isSome
      · simp [takeToFirstFinish, finishCount, hf]
      · simp only [takeToFirstFinish, if_neg hf]
        constructor
        · simpa [finishCount, hf] using ih.1
        · intro hany
          have : (rest.any fun o => o.finished.isSome) = true := by
            simpa [hf] using hany
          simpa [finishCount, hf] using ih.2 this

theorem start_success_sets_output (e : RawExport)
    (cArg : ImportCompressType) (outFd : Nat) (env : StartEnv)
    (hwf : startEnvWF env = true)
    (hr : 0 ≤ (raw_export_start e cArg outFd env).r) :
    (raw_export_start e cArg outFd env).e.output_fd = (outFd : Int) := by
  have hwf2 : (match env.openRes with
      | .error errno => decide (0 < errno)
      | .ok _ => true) = true ∧
      (match env.fstatRes with
      | .error errno => decide (0 < errno)
      | .ok _ => true) = true := by
    simpa [startEnvWF, Bool.and_eq_true] using hwf
  obtain ⟨hwo, hwfs⟩ := hwf2
  simp only [raw_export_start] at hr ⊢
  by_cases h1 : 0 ≤ e.output_fd
  · simp [h1, EBUSY] at hr
  · simp only [if_neg h1] at hr ⊢
    by_cases h2 : env.nonblockRes < 0
    · simp [h2] at hr
      omega
    · simp only [if_neg h2] at hr ⊢
      by_cases h3 : env.strdupOk = false
      · simp [h3, ENOMEM] at hr
      · simp only [if_neg h3] at hr ⊢
        cases hop : env.openRes with
        | error errno =>
            rw [hop] at hwo
            simp only [decide_eq_true_eq] at hwo
            simp [hop] at hr
            have : (0 : Int) < (errno : Int) := by exact_mod_cast hwo
            omega
        | ok sfd =>
            simp only [hop] at hr ⊢
            cases hfs : env.fstatRes with
            | error errno =>
                rw [hfs] at hwfs
                simp only [decide_eq_true_eq] at hwfs
                simp [hfs] at hr
                have : (0 : Int) < (errno : Int) := by exact_mod_cast hwfs
                omega
            | ok st =>
                simp only [hfs] at hr ⊢
                by_cases h4 : st.isReg = false
                · simp [h4, ENOTTY] at hr
                · simp only [if_neg h4] at hr ⊢
                  by_cases h5 : env.compressInitRes < 0
                  · simp [h5] at hr
                    omega
                  · simp only [if_neg h5] at hr ⊢
                    by_cases h6 : env.addIoRes = -(EPERM : Int)
                    · simp only [if_pos h6] at hr ⊢
                      by_cases h7 : env.addDeferRes < 0
                      · simp [h7] at hr
                        omega
                      · simp only [if_neg h7] at hr ⊢
                        by_cases h8 : env.setEnabledRes < 0
                        · simp [h8] at hr
                          omega
                        · simp only [if_neg h8] at hr ⊢
                    · simp only [if_neg h6] at hr ⊢
                      by_cases h9 : env.addIoRes < 0
                      · simp [h9] at hr
                        omega
                      · simp only [if_neg h9] at hr ⊢

theorem goodStartEnv_start (e : RawExport) (cArg : ImportCompressType)
    (outFd : Nat) (env : StartEnv) (ho : e.output_fd < 0)
    (hg : goodStartEnv env = true) :
    0 ≤ (raw_export_start e cArg outFd env).r ∧
    (raw_export_start e cArg outFd env).e.output_fd = (outFd : Int) ∧
    (raw_export_start e cArg outFd env).r = env.addIoRes := by
  have hg2 : (0 ≤ env.nonblockRes) ∧ env.strdupOk = true ∧
      ((match env.openRes with
        | .ok _ => true
        | .error _ => false) = true) ∧
      ((match env.fstatRes with
        | .ok st => st.isReg
        | .error _ => false) = true) ∧
      (0 ≤ env.compressInitRes) ∧ (0 ≤ env.addIoRes) := by
    simpa [goodStartEnv, Bool.and_eq_true, decide_eq_true_eq, and_assoc]
      using hg
  obtain ⟨g1, g2, g3, g4, g5, g6⟩ := hg2
  have hbusy : ¬ 0 ≤ e.output_fd := by omega
  have hnb : ¬ env.nonblockRes < 0 := by omega
  have hsd : ¬ env.strdupOk = false := by simp [g2]
  have hci : ¬ env.compressInitRes < 0 := by omega
  have hio : ¬ env.addIoRes = -(EPERM : Int) := by
    simp only [EPERM]
    omega
  have hio2 : ¬ env.addIoRes < 0 := by omega
  cases hop : env.openRes with
  | error errno =>
      rw [hop] at g3
      simp at g3
  | ok sfd =>
      cases hfs : env.fstatRes with
      | error errno =>
          rw [hfs] at g4
          simp at g4
      | ok st =>
          rw [hfs] at g4
          simp at g4
          have hreg : ¬ st.isReg = false := by simp [g4]
          simp only [raw_export_start, if_neg hbusy, if_neg hnb, if_neg hsd,
            hop, hfs, if_neg hreg, if_neg hci, if_neg hio, if_neg hio2]
          simpa using g6

theorem runState_append (l1 : List StepEnv) : ∀ (e : RawExport)
    (l2 : List StepEnv),
    runState e (l1 ++ l2) = runState (runState e l1) l2 := by
  induction l1 with
  | nil => intro e l2; simp [runState]
  | cons env rest ih => intro e l2; simp [runState, ih]

theorem runEmissions_append (l1 : List StepEnv) : ∀ (e : RawExport)
    (l2 : List StepEnv),
    runEmissions e (l1 ++ l2)
      = runEmissions e l1 ++ runEmissions (runState e l1) l2 := by
  induction l1 with
  | nil => intro e l2; simp [runEmissions, runState]
  | cons env rest ih =>
      intro e l2
      cases hem : (raw_export_process e env).emitted <;>
        simp [runEmissions, runState, hem, ih]

theorem pow63_lit : (2 : Nat) ^ 63 - 1 = 9223372036854775807 := by norm_num

theorem quiet_step (w lp : Nat) (h : w + 16384 < UINT64_LIMIT) :
    raw_export_process (sfState w lp true) quietEnv =
      { e := sfState (w + 16384) lp true, ret := 0, finished := none,
        emitted := none, reflinkAttempted := false, reflinkSucceeded := false,
        sendfileAttempted := true, bytesFromInput := 16384 } := by
  have h1 : ¬((sfState w lp true).tried_reflink = false ∧
      (sfState w lp true).compressType = .uncompressed) := by
    simp [sfState]
  have h2 : (sfState w lp true).tried_sendfile = false ∧
      (sfState w lp true).compressType = .uncompressed := by
    simp [sfState]
  simp only [raw_export_process, if_neg h1, afterReflink, if_pos h2, quietEnv]
  norm_num
  rw [report_rl_false]
  simp [sfState, Nat.mod_eq_of_lt h]

theorem quiet_consistent (w : Nat) (h : w + 16384 ≤ 2 ^ 63 - 1) :
    stepConsistent (2 ^ 63 - 1) w quietEnv = true := by
  rw [pow63_lit] at h
  simp only [stepConsistent, quietEnv, sendfileConsistent, readsConsistent,
    writeConsistent, COPY_BUFFER_SIZE, EAGAIN, Bool.and_eq_true,
    decide_eq_true_eq, pow63_lit]
  norm_num
  omega

theorem quiet_phase (k : Nat) : ∀ (w lp : Nat),
    w + 16384 * k ≤ 2 ^ 63 - 1 →
    runState (sfState w lp true) (List.replicate k quietEnv)
      = sfState (w + 16384 * k) lp true ∧
    runEmissions (sfState w lp true) (List.replicate k quietEnv) = [] ∧
    ∀ (rest : List StepEnv),
      runConsistent (2 ^ 63 - 1) w (sfState w lp true)
        (List.replicate k quietEnv ++ rest)
      = runConsistent (2 ^ 63 - 1) (w + 16384 * k)
          (sfState (w + 16384 * k) lp true) rest := by
  induction k with
  | zero =>
      intro w lp _
      simp [runState, runEmissions]
  | succ k ihk =>
      intro w lp h
      rw [pow63_lit] at h
      have hstep : w + 16384 < UINT64_LIMIT := by
        simp only [UINT64_LIMIT]
        omega
      have hrec : (w + 16384) + 16384 * k ≤ 2 ^ 63 - 1 := by
        rw [pow63_lit]
        omega
      have hq := quiet_step w lp hstep
      obtain ⟨ih1, ih2, ih3⟩ := ihk (w + 16384) lp hrec
      have harith : w + 16384 + 16384 * k = w + 16384 * (k + 1) := by ring
      rw [List.replicate_succ]
      refine ⟨?_, ?_, ?_⟩
      · rw [runState, hq]
        rw [ih1, harith]
      · rw [runEmissions, hq]
        simpa [harith] using ih2
      · intro rest
        rw [List.cons_append, runConsistent, hq]
        have hsc := quiet_consistent w (by rw [pow63_lit]; omega)
        rw [hsc]
        simp only [Bool.true_and]
        rw [show (w + 16384 : Nat)
            = w + (16384 : Nat) from rfl]
        rw [ih3 rest, harith]

theorem ceRun6_emissions : runEmissions e6start ceRun6 = [1, 0] := by
  have he6 : e6start = sfState 0 (UINT32_LIMIT - 1) false := by decide
  have q0 : raw_export_process (sfState 0 (UINT32_LIMIT - 1) false) quietEnv =
      { e := sfState 16384 (UINT32_LIMIT - 1) true, ret := 0,
        finished := none, emitted := none, reflinkAttempted := true,
        reflinkSucceeded := false, sendfileAttempted := true,
        bytesFromInput := 16384 } := by decide
  have hb1 : (16384 : Nat) + 16384 * (2 ^ 47 - 2) ≤ 2 ^ 63 - 1 := by
    norm_num
  obtain ⟨ph1s, ph1e, _⟩ :=
    quiet_phase (2 ^ 47 - 2) 16384 (UINT32_LIMIT - 1) hb1
  have harith1 : (16384 : Nat) + 16384 * (2 ^ 47 - 2) = 2 ^ 61 - 16384 := by
    norm_num
  rw [harith1] at ph1s
  have loud1 : raw_export_process
      (sfState (2 ^ 61 - 16384) (UINT32_LIMIT - 1) true) loudEnv =
      { e := sfState (2 ^ 61) 1 true, ret := 0, finished := none,
        emitted := some 1, reflinkAttempted := false,
        reflinkSucceeded := false, sendfileAttempted := true,
        bytesFromInput := 16384 } := by decide
  have hb2 : (2 ^ 61 : Nat) + 16384 * (2 ^ 47 - 1) ≤ 2 ^ 63 - 1 := by
    norm_num
  obtain ⟨ph2s, ph2e, _⟩ := quiet_phase (2 ^ 47 - 1) (2 ^ 61) 1 hb2
  have harith2 : (2 ^ 61 : Nat) + 16384 * (2 ^ 47 - 1) = 2 ^ 62 - 16384 := by
    norm_num
  rw [harith2] at ph2s
  have loud2 : raw_export_process (sfState (2 ^ 62 - 16384) 1 true) loudEnv =
      { e := sfState (2 ^ 62) 0 true, ret := 0, finished := none,
        emitted := some 0, reflinkAttempted := false,
        reflinkSucceeded := false, sendfileAttempted := true,
        bytesFromInput := 16384 } := by decide
  rw [he6]
  show runEmissions (sfState 0 (UINT32_LIMIT - 1) false)
      (quietEnv :: (List.replicate (2 ^ 47 - 2) quietEnv ++
        ([loudEnv] ++ (List.replicate (2 ^ 47 - 1) quietEnv ++ [loudEnv]))))
    = [1, 0]
  rw [runEmissions, q0]
  simp only
  rw [runEmissions_append, ph1e, ph1s, List.nil_append]
  rw [runEmissions_append]
  have hone : runEmissions (sfState (2 ^ 61 - 16384) (UINT32_LIMIT - 1) true)
      [loudEnv] = [1] := by
    rw [runEmissions, loud1]
    rfl
  have hstate1 : runState (sfState (2 ^ 61 - 16384) (UINT32_LIMIT - 1) true)
      [loudEnv] = sfState (2 ^ 61) 1 true := by
    rw [runState, loud1]
    rfl
  rw [hone, hstate1]
  rw [runEmissions_append, ph2e, ph2s, List.nil_append]
  have hzero : runEmissions (sfState (2 ^ 62 - 16384) 1 true) [loudEnv]
      = [0] := by
    rw [runEmissions, loud2]
    rfl
  rw [hzero]
  rfl

theorem runConsistent_cons (S off : Nat) (e : RawExport) (env : StepEnv)
    (rest : List StepEnv) :
    runConsistent S off e (env :: rest) =
      (stepConsistent S off env &&
       runConsistent S (off + (raw_export_process e env).bytesFromInput)
         (raw_export_process e env).e rest) := rfl

set_option maxRecDepth 4096 in
theorem ceRun6_consistent :
    runConsistent (2 ^ 63 - 1) 0 e6start ceRun6 = true := by
  have he6 : e6start = sfState 0 (UINT32_LIMIT - 1) false := by decide
  have q0 : raw_export_process (sfState 0 (UINT32_LIMIT - 1) false) quietEnv =
      { e := sfState 16384 (UINT32_LIMIT - 1) true, ret := 0,
        finished := none, emitted := none, reflinkAttempted := true,
        reflinkSucceeded := false, sendfileAttempted := true,
        bytesFromInput := 16384 } := by decide
  have hb1 : (16384 : Nat) + 16384 * (2 ^ 47 - 2) ≤ 2 ^ 63 - 1 := by
    norm_num
  obtain ⟨_, _, ph1c⟩ :=
    quiet_phase (2 ^ 47 - 2) 16384 (UINT32_LIMIT - 1) hb1
  have harith1 : (16384 : Nat) + 16384 * (2 ^ 47 - 2) = 2 ^ 61 - 16384 := by
    norm_num
  have loud1 : raw_export_process
      (sfState (2 ^ 61 - 16384) (UINT32_LIMIT - 1) true) loudEnv =
      { e := sfState (2 ^ 61) 1 true, ret := 0, finished := none,
        emitted := some 1, reflinkAttempted := false,
        reflinkSucceeded := false, sendfileAttempted := true,
        bytesFromInput := 16384 } := by decide
  have hb2 : (2 ^ 61 : Nat) + 16384 * (2 ^ 47 - 1) ≤ 2 ^ 63 - 1 := by
    norm_num
  obtain ⟨_, _, ph2c⟩ := quiet_phase (2 ^ 47 - 1) (2 ^ 61) 1 hb2
  have harith2 : (2 ^ 61 : Nat) + 16384 * (2 ^ 47 - 1) = 2 ^ 62 - 16384 := by
    norm_num
  have loud2 : raw_export_process (sfState (2 ^ 62 - 16384) 1 true) loudEnv =
      { e := sfState (2 ^ 62) 0 true, ret := 0, finished := none,
        emitted := some 0, reflinkAttempted := false,
        reflinkSucceeded := false, sendfileAttempted := true,
        bytesFromInput := 16384 } := by decide
  have hsc0 : stepConsistent (2 ^ 63 - 1) 0 quietEnv = true := by decide
  have hscl1 : stepConsistent (2 ^ 63 - 1) (2 ^ 61 - 16384) loudEnv
      = true := by decide
  have hscl2 : stepConsistent (2 ^ 63 - 1) (2 ^ 62 - 16384) loudEnv
      = true := by decide
  rw [he6]
  show runConsistent (2 ^ 63 - 1) 0 (sfState 0 (UINT32_LIMIT - 1) false)
      (quietEnv :: (List.replicate (2 ^ 47 - 2) quietEnv ++
        ([loudEnv] ++ (List.replicate (2 ^ 47 - 1) quietEnv ++ [loudEnv]))))
    = true
  rw [runConsistent_cons, hsc0, Bool.true_and, q0]
  show runConsistent (2 ^ 63 - 1) 16384
      (sfState 16384 (UINT32_LIMIT - 1) true)
      (List.replicate (2 ^ 47 - 2) quietEnv ++
        ([loudEnv] ++ (List.replicate (2 ^ 47 - 1) quietEnv ++ [loudEnv])))
    = true
  have hph1 := ph1c ([loudEnv] ++
    (List.replicate (2 ^ 47 - 1) quietEnv ++ [loudEnv]))
  rw [harith1] at hph1
  rw [hph1, List.singleton_append]
  rw [runConsistent_cons, hscl1, Bool.true_and, loud1]
  show runConsistent (2 ^ 63 - 1) (2 ^ 61 - 16384 + 16384)
      (sfState (2 ^ 61) 1 true)
      (List.replicate (2 ^ 47 - 1) quietEnv ++ [loudEnv]) = true
  have h61 : (2 ^ 61 - 16384 : Nat) + 16384 = 2 ^ 61 := by norm_num
  rw [h61]
  have hph2 := ph2c [loudEnv]
  rw [harith2] at hph2
  rw [hph2]
  rw [runConsistent_cons, hscl2, Bool.true_and, loud2]
  show runConsistent (2 ^ 63 - 1) (2 ^ 62 - 16384 + 16384)
      (sfState (2 ^ 62) 0 true) [] = true
  rfl

theorem continueGeneric_emitted_le (e : RawExport) (env : StepEnv)
    (ra sa : Bool) :
    ∀ p, (continueGeneric e env ra sa).emitted = some p → p ≤ 100 := by
  intro p hp
  cases hpl : processLoop e env.reads with
  | loopFinish e1 r c =>
      simp only [continueGeneric, hpl] at hp
      cases hp
  | loopStarve e1 c =>
      simp only [continueGeneric, hpl] at hp
      cases hp
  | loopReady e1 c =>
      cases hw2 : env.writeRes with
      | ioErr errno =>
          by_cases heag : errno = EAGAIN
          · simp only [continueGeneric, hpl, hw2, if_pos heag] at hp
            cases hp
          · simp only [continueGeneric, hpl, hw2, if_neg heag] at hp
            cases hp
      | ioOk m =>
          simp only [continueGeneric, hpl, hw2] at hp
          obtain ⟨h1, _, _⟩ := (report_emitted _ env.rlAllow).2 p hp
          rw [h1]
          exact percentOf_le_100 _ _

theorem afterReflink_emitted_le (e : RawExport) (env : StepEnv)
    (ra : Bool) :
    ∀ p, (afterReflink e env ra).emitted = some p → p ≤ 100 := by
  intro p hp
  by_cases hsa : e.tried_sendfile = false ∧ e.compressType = .uncompressed
  · cases hwsf : env.sendfileRes with
    | ioErr errno =>
        by_cases heag : errno = EAGAIN
        · simp only [afterReflink, if_pos hsa, hwsf, if_pos heag] at hp
          cases hp
        · simp only [afterReflink, if_pos hsa, hwsf, if_neg heag] at hp
          exact continueGeneric_emitted_le _ env ra true p hp
    | ioOk l =>
        by_cases hl0 : l = 0
        · simp only [afterReflink, if_pos hsa, hwsf, if_pos hl0] at hp
          cases hp
        · simp only [afterReflink, if_pos hsa, hwsf, if_neg hl0] at hp
          obtain ⟨h1, _, _⟩ := (report_emitted _ env.rlAllow).2 p hp
          rw [h1]
          exact percentOf_le_100 _ _
  · simp only [afterReflink, if_neg hsa] at hp
    exact continueGeneric_emitted_le e env ra false p hp

theorem process_emitted_le (e : RawExport) (env : StepEnv) :
    ∀ p, (raw_export_process e env).emitted = some p → p ≤ 100 := by
  intro p hp
  by_cases hra : e.tried_reflink = false ∧ e.compressType = .uncompressed
  · by_cases hrr : 0 ≤ env.reflinkRes
    · simp only [raw_export_process, if_pos hra, if_pos hrr] at hp
      cases hp
    · simp only [raw_export_process, if_pos hra, if_neg hrr] at hp
      exact afterReflink_emitted_le _ env true p hp
  · simp only [raw_export_process, if_neg hra] at hp
    exact afterReflink_emitted_le e env false p hp

theorem runEmissions_le_100 : ∀ (envs : List StepEnv) (e : RawExport),
    ∀ p ∈ runEmissions e envs, p ≤ 100 := by
  intro envs
  induction envs with
  | nil =>
      intro e p hp
      simp [runEmissions] at hp
  | cons env rest ih =>
      intro e p hp
      cases hem : (raw_export_process e env).emitted with
      | none =>
          simp only [runEmissions, hem] at hp
          exact ih _ p hp
      | some q =>
          simp only [runEmissions, hem] at hp
          rcases List.mem_cons.mp hp with rfl | hp2
          · exact process_emitted_le e env p hem
          · exact ih _ p hp2

/-! # Claim theorems -/

theorem raw_export_start_busy (e : RawExport) (cArg : ImportCompressType)
    (outFd : Nat) (env : StartEnv) (h : 0 ≤ e.output_fd) :
    raw_export_start e cArg outFd env =
      { e := e, r := -(EBUSY : Int), assignedInputFd := false } := by
  unfold raw_export_start
  rw [if_pos h]

/-- C1 counterexample: for the 1-byte source file, the reflink fast path
completes the export in one step with result 0 while
`written_uncompressed` is still 0, not the file size 1; the single-step
run is consistent with a 1-byte file. -/
theorem c1_reflink_counterexample :
    (raw_export_process (startedState .uncompressed 1)
        envReflinkOk).finished = some 0 ∧
    (raw_export_process (startedState .uncompressed 1)
        envReflinkOk).reflinkSucceeded = true ∧
    (raw_export_process (startedState .uncompressed 1)
        envReflinkOk).e.written_uncompressed = 0 ∧
    (startedState .uncompressed 1).st_size = 1 ∧
    runConsistent 1 0 (startedState .uncompressed 1) [envReflinkOk]
        = true := by decide

/-- C1 (amended): in every consistent run of a started engine on a file of
`S` bytes, if the export completes successfully (`finish` with 0) and the
completing step is not the whole-file reflink fast path, then
`written_uncompressed` at completion equals `S`. -/
theorem c1_written_uncompressed_amended :
    ∀ (S : Nat) (e0 : RawExport) (envs : List StepEnv) (o : StepOut),
    S < UINT64_LIMIT →
    e0.written_uncompressed = 0 → e0.eof = false → e0.st_size = S →
    runConsistent S 0 e0 envs = true →
    runToFinish e0 envs = some o →
    o.finished = some 0 → o.reflinkSucceeded = false →
    o.e.written_uncompressed = S := by
  intro S e0 envs o hS hw heof hst hcons hrun hfin hrs
  exact run_to_finish_spec S hS envs e0 0 hcons hw (Nat.zero_le S)
    (fun h => by rw [heof] at h; cases h) hst o hrun hfin hrs

theorem c1_written_uncompressed_amended_witness :
    (raw_export_process (raw_export_process (startedState .uncompressed 2)
        envSf2).e envSendfileEof).e.written_uncompressed = 2 :=
  c1_written_uncompressed_amended 2 (startedState .uncompressed 2)
    [envSf2, envSendfileEof]
    (raw_export_process (raw_export_process (startedState .uncompressed 2)
        envSf2).e envSendfileEof)
    (by norm_num [UINT64_LIMIT]) (by decide) (by decide) (by decide)
    (by decide) (by decide) (by decide) (by decide)

/-- C2 counterexample: the engine does not latch completion; if the event
loop delivers another writable notification after a terminal outcome, the
finish action (completion callback) runs a second time.  Concretely: for
an empty uncompressed source, two consecutive transfer steps both reach
`finish` with 0, so the callback fires twice, and the two-step schedule is
consistent with a 0-byte file. -/
theorem c2_double_finish_counterexample :
    (raw_export_process (startedState .uncompressed 0)
        envSendfileEof).finished = some 0 ∧
    (raw_export_process (raw_export_process (startedState .uncompressed 0)
        envSendfileEof).e envSendfileEof).finished = some 0 ∧
    finishCount (runTrace (startedState .uncompressed 0)
        [envSendfileEof, envSendfileEof]) = 2 ∧
    runConsistent 0 0 (startedState .uncompressed 0)
        [envSendfileEof, envSendfileEof] = true := by decide

/-- C2 (amended): within any trace, up to and including the first step
that reaches `finish:`, the finish action occurs at most once, and exactly
once whenever any step of the trace is terminal; exactly-once over the
whole export therefore holds provided no further steps are delivered after
the first terminal outcome (the engine itself does not prevent a repeated
finish, as the counterexample shows). -/
theorem c2_finish_once_amended :
    ∀ (e : RawExport) (envs : List StepEnv),
    finishCount (takeToFirstFinish (runTrace e envs)) ≤ 1 ∧
    (((runTrace e envs).any fun o => o.finished.isSome) = true →
      finishCount (takeToFirstFinish (runTrace e envs)) = 1) :=
  fun e envs => take_first_finish_count (runTrace e envs)

theorem c2_finish_once_amended_witness :
    finishCount (takeToFirstFinish (runTrace (startedState .uncompressed 0)
        [envSendfileEof, envSendfileEof])) = 1 :=
  (c2_finish_once_amended (startedState .uncompressed 0)
    [envSendfileEof, envSendfileEof]).2 (by decide)

/-- C3 counterexample: a compressed (xz) export of an empty file completes
(result 0) with both fast-path latches still false — neither latch
transitions false→true even once during that export, refuting "transitions
from false to true exactly once" as a property of every export. -/
theorem c3_latch_counterexample :
    (startedState .xz 0).tried_reflink = false ∧
    (startedState .xz 0).tried_sendfile = false ∧
    (raw_export_process (startedState .xz 0)
        envReadEofFlushNil).finished = some 0 ∧
    (raw_export_process (startedState .xz 0)
        envReadEofFlushNil).e.tried_reflink = false ∧
    (raw_export_process (startedState .xz 0)
        envReadEofFlushNil).e.tried_sendfile = false ∧
    runConsistent 0 0 (startedState .xz 0) [envReadEofFlushNil]
        = true := by decide

/-- C3 (amended): each latch transitions false→true at most once and is
never reset — once true it stays true and that strategy is never attempted
again in any later transfer step; a would-block (`EAGAIN`) outcome of the
bulk-transfer attempt does not set its latch; and the reflink latch
becomes true only by an actual reflink attempt. -/
theorem c3_latch_amended :
    ∀ (e : RawExport) (env : StepEnv),
    (e.tried_reflink = true →
      (raw_export_process e env).e.tried_reflink = true ∧
      (raw_export_process e env).reflinkAttempted = false) ∧
    (e.tried_sendfile = true →
      (raw_export_process e env).e.tried_sendfile = true ∧
      (raw_export_process e env).sendfileAttempted = false) ∧
    (env.sendfileRes = .ioErr EAGAIN →
      (raw_export_process e env).e.tried_sendfile = e.tried_sendfile) ∧
    ((raw_export_process e env).e.tried_reflink = true →
      e.tried_reflink = true ∨
      (raw_export_process e env).reflinkAttempted = true) := by
  intro e env
  obtain ⟨_, f2, f3, f4, f5⟩ := process_flags e env
  exact ⟨f2, f3, f4, f5⟩

theorem c3_latch_amended_witness :
    (raw_export_process eLatched envEagain).e.tried_reflink = true ∧
    (raw_export_process eLatched envEagain).reflinkAttempted = false ∧
    (raw_export_process eLatched envEagain).e.tried_sendfile = true ∧
    (raw_export_process eLatched envEagain).sendfileAttempted = false ∧
    (raw_export_process eLatched envEagain).e.tried_sendfile
        = eLatched.tried_sendfile := by
  obtain ⟨h1, h2, h3, _⟩ := c3_latch_amended eLatched envEagain
  exact ⟨(h1 (by decide)).1, (h1 (by decide)).2, (h2 (by decide)).1,
    (h2 (by decide)).2, h3 (by decide)⟩

/-- C4 counterexample: xz export of a 1-byte file; after the compressor
flush leaves one pending byte with input exhausted, the step that writes
that byte (emptying the buffer, `eof` set) does NOT proceed to finish in
the same invocation — it returns with no finish action, and the export
finishes with success only on the next notification. -/
theorem c4_same_step_finish_counterexample :
    e4mid.buffer = [7] ∧ e4mid.eof = true ∧
    (raw_export_process e4mid env42).e.buffer = [] ∧
    (raw_export_process e4mid env42).e.eof = true ∧
    (raw_export_process e4mid env42).finished = none ∧
    (raw_export_process (raw_export_process e4mid env42).e env43).finished
        = some 0 ∧
    runConsistent 1 0 (startedState .xz 1) [env41, env42, env43]
        = true := by decide

/-- C4 (amended): on the generic buffered path, a write of `M` bytes
advances the 64-bit compressed counter by exactly `M` and drops exactly
the first `M` bytes of the pending buffer, keeping the order of the rest;
the step returns 0 without finishing even when the buffer empties with
input exhausted — in that case the export finishes with success on the
NEXT transfer step, whatever its oracle. -/
theorem c4_write_flush_amended :
    ∀ (e : RawExport) (env : StepEnv) (m : Nat),
    (e.compressType = .uncompressed →
      e.tried_reflink = true ∧ e.tried_sendfile = true) →
    0 < e.buffer.length →
    env.writeRes = .ioOk m →
    (raw_export_process e env).e.buffer = e.buffer.drop m ∧
    (raw_export_process e env).e.written_compressed
        = (e.written_compressed + m) % UINT64_LIMIT ∧
    (raw_export_process e env).e.eof = e.eof ∧
    (raw_export_process e env).finished = none ∧
    (raw_export_process e env).ret = 0 ∧
    (e.eof = true → (raw_export_process e env).e.buffer = [] →
      ∀ env2,
        (raw_export_process (raw_export_process e env).e env2).finished
          = some 0) := by
  intro e env m hlat hbuf hwm
  have hra : ¬(e.tried_reflink = false ∧
      e.compressType = .uncompressed) := by
    rintro ⟨ha, hb⟩
    rw [(hlat hb).1] at ha
    cases ha
  have hsa : ¬(e.tried_sendfile = false ∧
      e.compressType = .uncompressed) := by
    rintro ⟨ha, hb⟩
    rw [(hlat hb).2] at ha
    cases ha
  have hpl : processLoop e env.reads = .loopReady e 0 := by
    rw [processLoop.eq_def, if_pos hbuf]
  obtain ⟨q1, q2, q3, q4, q5, q6, q7, q8, q9, q10, q11, q12⟩ :=
    report_preserved
      { e with
        buffer := e.buffer.drop m,
        written_compressed := (e.written_compressed + m) % UINT64_LIMIT }
      env.rlAllow
  simp only [raw_export_process, if_neg hra, afterReflink, if_neg hsa,
    continueGeneric, hpl, hwm]
  refine ⟨by simpa using q2, by simpa using q3, by simpa using q7,
    by trivial, by trivial, ?_⟩
  intro heof hbuf2 env2
  have hbuf3 : (raw_export_report_progress
      { e with
        buffer := e.buffer.drop m,
        written_compressed := (e.written_compressed + m) % UINT64_LIMIT }
      env.rlAllow).1.buffer = [] := by
    simpa using hbuf2
  have heof3 : (raw_export_report_progress
      { e with
        buffer := e.buffer.drop m,
        written_compressed := (e.written_compressed + m) % UINT64_LIMIT }
      env.rlAllow).1.eof = true := by
    rw [q7]
    simpa using heof
  have hra2 : ¬((raw_export_report_progress
      { e with
        buffer := e.buffer.drop m,
        written_compressed := (e.written_compressed + m) % UINT64_LIMIT }
      env.rlAllow).1.tried_reflink = false ∧
      (raw_export_report_progress
      { e with
        buffer := e.buffer.drop m,
        written_compressed := (e.written_compressed + m) % UINT64_LIMIT }
      env.rlAllow).1.compressType = .uncompressed) := by
    rw [q8, q1]
    intro hx
    exact hra (by simpa using hx)
  have hsa2 : ¬((raw_export_report_progress
      { e with
        buffer := e.buffer.drop m,
        written_compressed := (e.written_compressed + m) % UINT64_LIMIT }
      env.rlAllow).1.tried_sendfile = false ∧
      (raw_export_report_progress
      { e with
        buffer := e.buffer.drop m,
        written_compressed := (e.written_compressed + m) % UINT64_LIMIT }
      env.rlAllow).1.compressType = .uncompressed) := by
    rw [q9, q1]
    intro hx
    exact hsa (by simpa using hx)
  have hpl2 : processLoop (raw_export_report_progress
      { e with
        buffer := e.buffer.drop m,
        written_compressed := (e.written_compressed + m) % UINT64_LIMIT }
      env.rlAllow).1 env2.reads
      = .loopFinish (raw_export_report_progress
      { e with
        buffer := e.buffer.drop m,
        written_compressed := (e.written_compressed + m) % UINT64_LIMIT }
      env.rlAllow).1 0 0 := by
    rw [processLoop.eq_def, if_neg (by rw [hbuf3]; simp), if_pos heof3]
  simp only [raw_export_process, if_neg hra2, afterReflink, if_neg hsa2,
    continueGeneric, hpl2]

theorem c4_write_flush_amended_witness :
    (raw_export_process e4mid env42).e.buffer = e4mid.buffer.drop 1 ∧
    (raw_export_process e4mid env42).e.written_compressed
        = (e4mid.written_compressed + 1) % UINT64_LIMIT ∧
    (raw_export_process e4mid env42).finished = none ∧
    (raw_export_process (raw_export_process e4mid env42).e env43).finished
        = some 0 := by
  obtain ⟨h1, h2, _, h4, _, h6⟩ :=
    c4_write_flush_amended e4mid env42 1 (by decide) (by decide)
      (by decide)
  exact ⟨h1, h2, h4, h6 (by decide) (by decide) env43⟩

/-- C5 counterexample: at `written_uncompressed = 2^61` for a source of
`2^63 - 1` bytes (a valid regular-file size), the reporter emits 1 percent
— the 64-bit product `written * 100` wraps — whereas
`floor(written * 100 / size)` is 25; this mid-export state is reachable
(see the C6 counterexample run, whose first probed emission is exactly
this call). -/
theorem c5_percent_formula_counterexample :
    (raw_export_report_progress (sfState (2 ^ 61) (UINT32_LIMIT - 1) true)
        true).2 = some 1 ∧
    (sfState (2 ^ 61) (UINT32_LIMIT - 1) true).written_uncompressed * 100
        / (sfState (2 ^ 61) (UINT32_LIMIT - 1) true).st_size = 25 ∧
    (1 : Nat) ≠ 25 := by decide

/-- C5 (amended): the reporter computes
`percent = 100` when `written_uncompressed ≥ st_size` and
`floor((written_uncompressed * 100 mod 2^64) / st_size)` otherwise, which
equals the claimed `floor(written * 100 / size)` whenever
`written * 100 < 2^64`; nothing is emitted (and the state is unchanged)
when the percent equals the last reported value or the rate limiter
denies; on an actual emission `last_percent` is updated to the emitted
percent. -/
theorem c5_percent_formula_amended :
    ∀ (e : RawExport) (rl : Bool),
    ((percentOf e.written_uncompressed e.st_size = e.last_percent ∨
        rl = false) →
      (raw_export_report_progress e rl).2 = none ∧
      (raw_export_report_progress e rl).1 = e) ∧
    (percentOf e.written_uncompressed e.st_size ≠ e.last_percent →
      rl = true →
      (raw_export_report_progress e rl).2
          = some (percentOf e.written_uncompressed e.st_size) ∧
      (raw_export_report_progress e rl).1.last_percent
          = percentOf e.written_uncompressed e.st_size) ∧
    (∀ w s : Nat, w * 100 < UINT64_LIMIT →
      percentOf w s = if s ≤ w then 100 else w * 100 / s) := by
  intro e rl
  refine ⟨?_, ?_, fun w s h => percentOf_no_overflow h⟩
  · intro h
    unfold raw_export_report_progress
    rcases h with h | h
    · simp [h]
    · subst h
      by_cases h2 : percentOf e.written_uncompressed e.st_size
          = e.last_percent <;> simp [h2]
  · intro hne hrl
    subst hrl
    unfold raw_export_report_progress
    simp [hne]

theorem c5_percent_formula_amended_witness :
    ((raw_export_report_progress (startedState .uncompressed 2) false).2
        = none ∧
      (raw_export_report_progress (startedState .uncompressed 2) false).1
        = startedState .uncompressed 2) ∧
    percentOf 3 5 = if (5 : Nat) ≤ 3 then 100 else 3 * 100 / 5 :=
  ⟨(c5_percent_formula_amended (startedState .uncompressed 2) false).1
      (Or.inr rfl),
    (c5_percent_formula_amended (startedState .uncompressed 2) false).2.2
      3 5 (by norm_num [UINT64_LIMIT])⟩

/-- C6 counterexample: over one consistent export of a `2^63 - 1`-byte
file, the emitted percentages are `[1, 0]` — a decreasing sequence —
because the 64-bit product `written * 100` wraps at `written = 2^61`
(true progress 25%, emitted 1%) and at `written = 2^62` (true progress
50%, emitted 0%). -/
theorem c6_monotone_counterexample :
    runEmissions e6start ceRun6 = [1, 0] ∧
    ¬ List.Pairwise (fun a b : Nat => a ≤ b) (runEmissions e6start ceRun6) ∧
    runConsistent (2 ^ 63 - 1) 0 e6start ceRun6 = true := by
  refine ⟨ceRun6_emissions, ?_, ceRun6_consistent⟩
  rw [ceRun6_emissions]
  decide

/-- C6 (amended): every emitted value is at most 100, unconditionally —
for every engine state and every schedule, including exports of files
past the 64-bit wraparound threshold; and for every consistent export of
a file of `S` bytes with `S * 100 < 2^64` (every file smaller than about
184 PB) the emitted percentages are strictly increasing — hence
non-decreasing with no value emitted twice.  For larger files
monotonicity can fail by 64-bit wraparound (see the counterexample). -/
theorem c6_monotone_amended :
    ∀ (e0 : RawExport) (envs : List StepEnv),
    (∀ p ∈ runEmissions e0 envs, p ≤ 100) ∧
    (∀ S : Nat, S * 100 < UINT64_LIMIT →
      e0.written_uncompressed = 0 → e0.eof = false → e0.st_size = S →
      e0.last_percent = UINT32_LIMIT - 1 →
      runConsistent S 0 e0 envs = true →
      List.Pairwise (· < ·) (runEmissions e0 envs)) := by
  intro e0 envs
  refine ⟨runEmissions_le_100 envs e0, ?_⟩
  intro S hS hw heof hst hlp hcons
  exact (run_pairwise S hS envs e0 0 hcons hw (Nat.zero_le S)
    (fun h => by rw [heof] at h; cases h) hst (Or.inl hlp)).1

theorem c6_monotone_amended_witness :
    (∀ p ∈ runEmissions (startedState .uncompressed 2)
      [envSf2, envSendfileEof], p ≤ 100) ∧
    List.Pairwise (· < ·) (runEmissions (startedState .uncompressed 2)
      [envSf2, envSendfileEof]) ∧
    (∀ p ∈ runEmissions e6start ceRun6, p ≤ 100) := by
  obtain ⟨h1, h2⟩ := c6_monotone_amended (startedState .uncompressed 2)
    [envSf2, envSendfileEof]
  exact ⟨h1,
    h2 2 (by norm_num [UINT64_LIMIT]) (by decide) (by decide) (by decide)
      (by decide) (by decide),
    (c6_monotone_amended e6start ceRun6).1⟩

/-- C7 counterexample: a start that fails at compressor initialisation
(after snapshot acquisition) leaves `input_fd` assigned (descriptor 5) and
`output_fd` unset; the retried start is not rejected and assigns
`input_fd` a second time (descriptor 7) — two assignments on one engine
instance, refuting "assigned at most once ... including across a failed
start followed by a retried start". -/
theorem c7_input_fd_counterexample :
    (raw_export_start raw_export_new .xz 4 startEnvFail7).r < 0 ∧
    (raw_export_start raw_export_new .xz 4 startEnvFail7).assignedInputFd
        = true ∧
    (raw_export_start raw_export_new .xz 4 startEnvFail7).e.input_fd = 5 ∧
    (raw_export_start raw_export_new .xz 4 startEnvFail7).e.output_fd
        = -1 ∧
    (raw_export_start (raw_export_start raw_export_new .xz 4
        startEnvFail7).e .xz 4 startEnvOk7).assignedInputFd = true ∧
    (raw_export_start (raw_export_start raw_export_new .xz 4
        startEnvFail7).e .xz 4 startEnvOk7).e.input_fd = 7 := by decide

/-- C7 (amended): after a SUCCESSFUL start, every further start on the
same engine is rejected with `-EBUSY` without assigning `input_fd` and
without touching the engine state — so `input_fd` is assigned at most once
as long as no start fails after snapshot acquisition; a failed start does
permit a second assignment on retry (see the counterexample). -/
theorem c7_input_fd_amended :
    ∀ (e : RawExport) (c1 : ImportCompressType) (fd1 : Nat)
      (env1 : StartEnv) (c2 : ImportCompressType) (fd2 : Nat)
      (env2 : StartEnv),
    startEnvWF env1 = true →
    0 ≤ (raw_export_start e c1 fd1 env1).r →
    (raw_export_start (raw_export_start e c1 fd1 env1).e c2 fd2 env2).r
        = -(EBUSY : Int) ∧
    (raw_export_start (raw_export_start e c1 fd1 env1).e c2 fd2
        env2).assignedInputFd = false ∧
    (raw_export_start (raw_export_start e c1 fd1 env1).e c2 fd2 env2).e
        = (raw_export_start e c1 fd1 env1).e := by
  intro e c1 fd1 env1 c2 fd2 env2 hwf hr
  have hout := start_success_sets_output e c1 fd1 env1 hwf hr
  have hbusy : 0 ≤ (raw_export_start e c1 fd1 env1).e.output_fd := by
    rw [hout]
    exact Int.natCast_nonneg fd1
  rw [raw_export_start_busy _ c2 fd2 env2 hbusy]
  exact ⟨rfl, rfl, rfl⟩

theorem c7_input_fd_amended_witness :
    (raw_export_start (raw_export_start raw_export_new .xz 4
        (startEnvOkSize 100)).e .xz 4 startEnvOk7).r = -(EBUSY : Int) ∧
    (raw_export_start (raw_export_start raw_export_new .xz 4
        (startEnvOkSize 100)).e .xz 4 startEnvOk7).assignedInputFd
        = false ∧
    (raw_export_start (raw_export_start raw_export_new .xz 4
        (startEnvOkSize 100)).e .xz 4 startEnvOk7).e
        = (raw_export_start raw_export_new .xz 4 (startEnvOkSize 100)).e :=
  c7_input_fd_amended raw_export_new .xz 4 (startEnvOkSize 100) .xz 4
    startEnvOk7 (by decide) (by decide)

/-- C8: starting on a non-regular file (here a directory) fails with
`-ENOTTY` ("unsupported type"); `output_fd` and `input_fd` are not
assigned, so the engine stays reusable: a subsequent start with
successful oracles is not rejected as busy and returns success. -/
theorem c8_non_regular_start :
    ∀ (e : RawExport) (cArg : ImportCompressType) (outFd : Nat)
      (env : StartEnv) (sfd : Nat) (st : StatInfo),
    0 ≤ env.nonblockRes → env.strdupOk = true →
    env.openRes = .ok sfd → env.fstatRes = .ok st → st.isReg = false →
    ¬ 0 ≤ e.output_fd →
    (raw_export_start e cArg outFd env).r = -(ENOTTY : Int) ∧
    (raw_export_start e cArg outFd env).e.output_fd = e.output_fd ∧
    (raw_export_start e cArg outFd env).e.input_fd = e.input_fd ∧
    (raw_export_start e cArg outFd env).assignedInputFd = false ∧
    (∀ (c2 : ImportCompressType) (fd2 : Nat) (env2 : StartEnv),
      goodStartEnv env2 = true →
      0 ≤ (raw_export_start (raw_export_start e cArg outFd env).e c2 fd2
          env2).r) := by
  intro e cArg outFd env sfd st h1 h2 h3 h4 h5 hbusy
  have hnb : ¬ env.nonblockRes < 0 := by omega
  have hsd : ¬ env.strdupOk = false := by simp [h2]
  have hstart : raw_export_start e cArg outFd env =
      { e := { e with
          path_set := true,
          st_size := st.size,
          st_isReg := st.isReg },
        r := -(ENOTTY : Int), assignedInputFd := false } := by
    unfold raw_export_start
    rw [if_neg hbusy, if_neg hnb, if_neg hsd]
    simp only [h3, h4]
    rw [if_pos h5]
  rw [hstart]
  refine ⟨rfl, rfl, rfl, rfl, ?_⟩
  intro c2 fd2 env2 hg
  exact (goodStartEnv_start _ c2 fd2 env2 (by simpa using hbusy) hg).1

theorem c8_non_regular_start_witness :
    (raw_export_start raw_export_new .uncompressed 4 startEnvDir).r
        = -(ENOTTY : Int) ∧
    (raw_export_start raw_export_new .uncompressed 4
        startEnvDir).e.output_fd = raw_export_new.output_fd ∧
    0 ≤ (raw_export_start (raw_export_start raw_export_new .uncompressed 4
        startEnvDir).e .uncompressed 4 (startEnvOkSize 100)).r := by
  obtain ⟨h1, h2, _, _, h5⟩ := c8_non_regular_start raw_export_new
    .uncompressed 4 startEnvDir 3 ⟨4096, false⟩ (by decide) (by decide)
    rfl rfl (by decide) (by decide)
  exact ⟨h1, h2, h5 .uncompressed 4 (startEnvOkSize 100) (by decide)⟩

/-- C9: the percent computation divides by `st_size` only on the branch
where `written_uncompressed < st_size`, which forces `st_size ≥ 1`; for a
0-byte source the comparison `st_size ≤ written` holds trivially and the
percent is 100 with no division. -/
theorem c9_no_div_by_zero :
    ∀ w s : Nat, (¬ s ≤ w → 0 < s) ∧
    (s = 0 → s ≤ w ∧ percentOf w s = 100) := by
  intro w s
  constructor
  · intro h
    push_neg at h
    omega
  · intro h
    subst h
    exact ⟨Nat.zero_le w, by simp [percentOf]⟩

theorem c9_no_div_by_zero_witness :
    (0 : Nat) ≤ 5 ∧ percentOf 5 0 = 100 :=
  (c9_no_div_by_zero 5 0).2 rfl

/-- C10: every invocation of the transfer step returns 0 to the event
loop, for every engine state and every oracle outcome (including fatal
read, write and compressor errors, whose negative codes travel only in
the finish action, never in the handler's return value). -/
theorem c10_process_returns_zero :
    ∀ (e : RawExport) (env : StepEnv), (raw_export_process e env).ret = 0 :=
  fun e env => (process_flags e env).1
